import Mathlib

/-!
Verification of the configuration evaluation engine of `Scout2.py` (`main`).

The embedding follows the source line by line:

* `dictGet` / `dictSet` / `dictUpdate` model Python dictionary access with
  string keys (Python dictionaries have unique keys; `dictSet` replaces the
  first binding of the key or appends a fresh one).
* A `Violation` is the per-rule dictionary built at lines 172-191 of
  `Scout2.py`; each field is an `Option` because a Python dictionary key may
  be absent (accessing an absent key raises `KeyError`).
* `processRule` is the body of the per-rule loop (lines 168-191), `ruleLoop`
  the loop itself (lines 166-191).
* `filterItems`, `excStep` and `exceptionsStage` are the exception-filtering
  block (lines 197-209).
* `runMain` chains the stages of `main` in source order: loading local data
  (lines 80-90), fetching (93-122), resetting violations (139-141), the
  vpc/ec2/iam analyzers (143-148), the two cross-reference enrichment passes
  (150-162), the rule loop (166-191), the cloudtrail tweaks (193-195), the
  exception filter (197-209), report metadata (217-222) and the final report
  (224-226).  An uncaught Python exception is modelled by the `aborted` field
  of `RunState`: once set, no later stage runs (in particular no report is
  produced).
* The `trace` field records externally observable events (enrichment passes,
  per-rule evaluations, loading the exception file, writing the report) in
  the order they happen; `errors` records the `printError` diagnostics.

The path evaluator `recurse` lives in `AWSScout2.findings`, which is not part
of the two source files; it is modelled from the specification (section 4.1),
see its doc comment.  The same holds for the bodies of the enrichers, the
analyzers, the fetchers and the cloudtrail tweak: `Scout2.py` only calls
them, so they enter the model as opaque-behaviour parameters (arbitrary
functions), which makes every theorem about `main`'s own control flow hold
for any behaviour of those collaborators.
-/

/-- A node of the Configuration Tree: a scalar (string, number, boolean or
null), a sequence, or a string-keyed mapping, exactly as in section 3 of the
specification (Python JSON-like data). -/
inductive ConfigNode where
  | nullV : ConfigNode
  | str : String → ConfigNode
  | num : Int → ConfigNode
  | boolV : Bool → ConfigNode
  | seq : List ConfigNode → ConfigNode
  | map : List (String × ConfigNode) → ConfigNode

/-- Python dictionary lookup `d[k]` (as an `Option`, `none` meaning the key is
absent and access would raise `KeyError`). -/
def dictGet {α : Type} (d : List (String × α)) (k : String) : Option α :=
  match d with
  | [] => none
  | p :: ps => if p.1 = k then some p.2 else dictGet ps k

/-- Python dictionary assignment `d[k] = v`: replace the binding of `k` (keys
are unique in a Python dictionary) or append a fresh one. -/
def dictSet {α : Type} (d : List (String × α)) (k : String) (v : α) : List (String × α) :=
  match d with
  | [] => [(k, v)]
  | p :: ps => if p.1 = k then (k, v) :: ps else p :: dictSet ps k v

/-- Update the value bound to `k` in place, leaving the dictionary unchanged
when the key is absent. -/
def dictUpdate {α : Type} (d : List (String × α)) (k : String) (f : α → α) : List (String × α) :=
  match d with
  | [] => []
  | p :: ps => (if p.1 = k then (p.1, f p.2) else p) :: dictUpdate ps k f

/-- Model of Python's `finding_path.split('.')` (line 169 of `Scout2.py`),
written by structural recursion over the character list so that it evaluates
inside the kernel. -/
def splitDotsAux : List Char → List Char → List String
  | [], acc => [String.mk acc.reverse]
  | c :: cs, acc =>
      if c = '.' then String.mk acc.reverse :: splitDotsAux cs []
      else splitDotsAux cs (c :: acc)

/-- Model of Python's `str.split('.')`. -/
def splitDots (s : String) : List String :=
  splitDotsAux s.data []

/-- Join path components with dots, producing the `ItemIdentifier` of a
flagged leaf (section 3 of the specification). -/
def joinDots : List String → String
  | [] => ""
  | [s] => s
  | s :: rest => s ++ "." ++ joinDots rest

/-- One finding definition of the Rule Catalog (section 3 of the
specification): reporting metadata plus the condition evaluated at each leaf
reached by the rule's path.  The condition may consult the full tree root and
may fail (a raising condition is an `Except.error`); `polarity` is the value
the condition must produce for the leaf to be flagged. -/
structure RuleSpec where
  description : String := ""
  rulePath : String := ""
  level : String := ""
  id_suffix : Option String := none
  display_path : Option String := none
  dashboard_name : Option String := none
  checked_items : Option Nat := none
  condition : ConfigNode → ConfigNode → Except String Bool := fun _ _ => Except.ok false
  polarity : Bool := true

/-- Modelled from the spec: the Path Evaluator `recurse` is defined in
`AWSScout2.findings`, which is not among the source files; this definition
follows section 4.1 of the specification word for word.  With an empty
remaining path the current position is a leaf and the rule's condition is
applied (against the threaded tree root); a literal segment descends into a
mapping child when it exists and otherwise yields no matches; the wildcard
segment `*` descends into every mapping key or sequence index in order,
taking the union; a scalar met while path segments remain yields no matches.
A raising condition propagates (`Except.error`), to be caught at the rule
boundary by the caller. -/
def recurse (root : ConfigNode) (rule : RuleSpec) (current : ConfigNode)
    (path : List String) (acc : List String) : Except String (List String) :=
  match path with
  | [] => do
      let b ← rule.condition current root
      if b = rule.polarity then pure [joinDots acc] else pure []
  | seg :: rest =>
      if seg = "*" then
        match current with
        | ConfigNode.map kvs => do
            let rs ← kvs.mapM (fun kv => recurse root rule kv.2 rest (acc ++ [kv.1]))
            pure rs.flatten
        | ConfigNode.seq xs => do
            let rs ← xs.enum.mapM (fun p => recurse root rule p.2 rest (acc ++ [toString p.1]))
            pure rs.flatten
        | _ => pure []
      else
        match current with
        | ConfigNode.map kvs =>
            match dictGet kvs seg with
            | some child => recurse root rule child rest (acc ++ [seg])
            | none => pure []
        | _ => pure []

/-- The per-rule violation dictionary built by lines 172-191 of `Scout2.py`.
Every field is optional because the corresponding Python dictionary key may
be absent: in particular `items` is only assigned when `recurse` returns
(line 181), and `dashboard_name` and `service` only after it (lines 182,
185). -/
structure Violation where
  description : Option String := none
  path : Option String := none
  level : Option String := none
  id_suffix : Option String := none
  display_path : Option String := none
  items : Option (List String) := none
  dashboard_name : Option String := none
  checked_items : Option Nat := none
  flagged_items : Option Nat := none
  service : Option String := none
  deriving DecidableEq, Repr

instance : Inhabited Violation := ⟨{}⟩

/-- The per-service entry of `aws_config['services']`.  In the source both
the fetched configuration and the `violations` dictionary live in the same
Python dictionary; they are split into two fields here (no rule path ever
traverses the `violations` key).  The `violations` field existing always
models `manage_dictionary(..., 'violations', {})` (lines 96 and 171). -/
structure ServiceData where
  config : ConfigNode := ConfigNode.map []
  violations : List (String × Violation) := []

/-- The empty per-service dictionary added by
`manage_dictionary(aws_config['services'], service, {})` (line 95). -/
def emptyService : ServiceData := {}

/-- The `aws_config['services']` dictionary seen as a Configuration Tree, as
passed to `recurse` at line 181 (both as the traversal root and as the
current node). -/
def servicesTree (svc : List (String × ServiceData)) : ConfigNode :=
  ConfigNode.map (svc.map (fun p => (p.1, p.2.config)))

/-- Observable events of one run of `main`, in execution order. -/
inductive Event where
  | enrichInstancesRoles
  | enrichPoliciesBuckets
  | evalRule (service : String) (rule : String)
  | loadExceptions
  | report
  deriving DecidableEq, Repr

/-- The running state of `main`: the services dictionary, the event trace,
the `printError` diagnostics, and — when a Python exception escaped a stage —
the pending uncaught exception (`aborted`), which prevents every later stage
from running. -/
structure RunState where
  svc : List (String × ServiceData) := []
  trace : List Event := []
  errors : List String := []
  aborted : Option String := none

/-- The command-line arguments of `main` that steer the engine. -/
structure MainArgs where
  services : List String := []
  allServices : List String := []
  fetchLocal : Bool := false
  resume : Bool := false
  update : Bool := false
  s3Special : Bool := false
  regions : List String := []

/-- One catalog entry: the finding path (the key of `rules`), the rule
identifier, and the rule body. -/
abbrev CatalogEntry := String × String × RuleSpec

/-- The owning service of a catalog entry: `path[0]` where
`path = finding_path.split('.')` (lines 169-170). -/
def entryService (e : CatalogEntry) : String :=
  (splitDots e.1).headD ""

/-- The parsed exception (suppression) file: service → rule id → list of
item identifiers (lines 202-206). -/
abbrev ExcFile := List (String × List (String × List String))

/-- The external collaborators called by `main` but defined outside the two
source files (opinel and the `AWSScout2` package): the local-data loader, the
per-service fetcher, the vpc/ec2/iam analyzers, the two cross-reference
enrichers, the cloudtrail tweak and the report-metadata generator.  They are
arbitrary functions, so every theorem about `main`'s control flow holds for
any behaviour of these collaborators; a returned `Except.error` models a
raised Python exception.  The two enrichers mutate their dictionary
arguments in place in the source, so each takes the two service
configurations and returns the two configurations it left behind: on
success `Except.ok (e, i)`, and on a raise `Except.error (msg, e, i)` where
`e` and `i` are the states in which the raise left the two (possibly
partially enriched) configurations — the raise does not undo in-place
mutation already performed. -/
structure Collaborators where
  localData : String → ServiceData := fun _ => {}
  fetched : String → ConfigNode → Except String ConfigNode := fun _ c => Except.ok c
  analyze : String → ConfigNode → ConfigNode := fun _ c => c
  enrichIR : ConfigNode → ConfigNode →
    Except (String × ConfigNode × ConfigNode) (ConfigNode × ConfigNode) :=
    fun a b => Except.ok (a, b)
  enrichBP : ConfigNode → ConfigNode →
    Except (String × ConfigNode × ConfigNode) (ConfigNode × ConfigNode) :=
    fun a b => Except.ok (a, b)
  tweak : String → Violation → Violation := fun _ v => v
  metadataResult : Except String Unit := Except.ok ()

/-- Lines 86-90: for a service loaded from local data, region-specific data
is emptied for every region selected by `args.regions` (all regions when the
selection is empty); the persisted `violations` are left untouched. -/
def killRegions (regions : List String) (sd : ServiceData) : ServiceData :=
  match sd.config with
  | ConfigNode.map kvs =>
      { sd with config := ConfigNode.map (kvs.map (fun kv =>
          if kv.1 = "regions" then
            (kv.1, match kv.2 with
                   | ConfigNode.map rs =>
                       ConfigNode.map (rs.map (fun r =>
                         if regions = [] ∨ r.1 ∈ regions then (r.1, ConfigNode.map [])
                         else r))
                   | other => other)
          else kv)) }
  | _ => sd

/-- Lines 80-90: local data is loaded for every known service that is not
selected for this run, or unconditionally under `--local`, `--resume`,
`--update`, or for s3 when a bucket filter is given. -/
def loadLocalStage (args : MainArgs) (co : Collaborators) : List (String × ServiceData) :=
  args.allServices.foldl (fun svc service =>
    if service ∉ args.services ∨ args.fetchLocal ∨ args.resume ∨ args.update ∨
        (service = "s3" ∧ args.s3Special) then
      dictSet svc service (killRegions args.regions (co.localData service))
    else svc) []

/-- Lines 93-122: for every selected service, ensure its entry exists
(`manage_dictionary`, lines 95-96), then either reload the local file
(`--local`, line 118) or fetch from the API (line 115); a raised exception is
caught and reported (lines 119-121), leaving the entry as it was. -/
def fetchStep (args : MainArgs) (co : Collaborators)
    (acc : List (String × ServiceData) × List String) (service : String) :
    List (String × ServiceData) × List String :=
  let svc := if (dictGet acc.1 service).isSome then acc.1
             else dictSet acc.1 service emptyService
  if args.fetchLocal then
    (dictSet svc service (co.localData service), acc.2)
  else
    match dictGet svc service with
    | some sd =>
        match co.fetched service sd.config with
        | Except.ok cfg => (dictSet svc service { sd with config := cfg }, acc.2)
        | Except.error _ =>
            (svc, acc.2 ++ ["Error: could not fetch " ++ service ++ " configuration."])
    | none => (svc, acc.2)

def fetchStage (args : MainArgs) (co : Collaborators)
    (svc0 : List (String × ServiceData)) : List (String × ServiceData) × List String :=
  args.services.foldl (fetchStep args co) (svc0, [])

/-- Lines 139-141: the violations dictionary of every selected service is
reset to empty before evaluation. -/
def resetViolationsStage (services : List String)
    (svc : List (String × ServiceData)) : List (String × ServiceData) :=
  services.foldl (fun svc s => dictUpdate svc s (fun sd => { sd with violations := [] })) svc

/-- Lines 143-148: the vpc/ec2/iam analyzers rewrite the fetched
configuration of each service in place; they do not touch the violations
dictionaries. -/
def analyzeStage (analyze : String → ConfigNode → ConfigNode)
    (svc : List (String × ServiceData)) : List (String × ServiceData) :=
  svc.map (fun p => (p.1, { p.2 with config := analyze p.1 p.2.config }))

/-- Lines 151-156: the Instance↔Role enrichment pass.  It runs only when both
`ec2` and `iam` are selected.  `match_instances_and_roles` mutates
`aws_config['services']['ec2']` and `['iam']` in place, so the pass installs
whatever configurations the call left behind — whether it returned or
raised: the `except` block (lines 154-156) only prints, it does not (and
cannot) roll back partial in-place enrichment.  An exception raised by the
service lookups in the argument list (before the call) leaves the tree
unchanged and is reported by the same block. -/
def enrichIRPass (args : MainArgs)
    (enrichIR : ConfigNode → ConfigNode →
      Except (String × ConfigNode × ConfigNode) (ConfigNode × ConfigNode))
    (st : RunState) : RunState :=
  if st.aborted.isSome then st else
  if "ec2" ∈ args.services ∧ "iam" ∈ args.services then
    match dictGet st.svc "ec2", dictGet st.svc "iam" with
    | some e, some i =>
        let st := { st with trace := st.trace ++ [Event.enrichInstancesRoles] }
        match enrichIR e.config i.config with
        | Except.ok (ecfg, icfg) =>
            { st with svc := dictSet (dictSet st.svc "ec2" { e with config := ecfg })
                                     "iam" { i with config := icfg } }
        | Except.error (msg, ecfg, icfg) =>
            { st with
                svc := dictSet (dictSet st.svc "ec2" { e with config := ecfg })
                               "iam" { i with config := icfg }
                errors := st.errors ++
                  ["Error: EC2 or IAM configuration is missing.", msg] }
    | _, _ =>
        { st with errors := st.errors ++ ["Error: EC2 or IAM configuration is missing."] }
  else st

/-- Lines 157-162: the Bucket↔Policy enrichment pass, structured exactly as
the Instance↔Role pass: `match_iam_policies_and_buckets` mutates the s3/iam
dictionaries in place, so the configurations it left behind are installed
whether it returned or raised, and the `except` block only prints. -/
def enrichBPPass (args : MainArgs)
    (enrichBP : ConfigNode → ConfigNode →
      Except (String × ConfigNode × ConfigNode) (ConfigNode × ConfigNode))
    (st : RunState) : RunState :=
  if st.aborted.isSome then st else
  if "s3" ∈ args.services ∧ "iam" ∈ args.services then
    match dictGet st.svc "s3", dictGet st.svc "iam" with
    | some s, some i =>
        let st := { st with trace := st.trace ++ [Event.enrichPoliciesBuckets] }
        match enrichBP s.config i.config with
        | Except.ok (scfg, icfg) =>
            { st with svc := dictSet (dictSet st.svc "s3" { s with config := scfg })
                                     "iam" { i with config := icfg } }
        | Except.error (msg, scfg, icfg) =>
            { st with
                svc := dictSet (dictSet st.svc "s3" { s with config := scfg })
                               "iam" { i with config := icfg }
                errors := st.errors ++
                  ["Error: s3 or IAM configuration is missing.", msg] }
    | _, _ =>
        { st with errors := st.errors ++ ["Error: s3 or IAM configuration is missing."] }
  else st

/-- Lines 150-162: both cross-reference enrichment passes, in source order. -/
def enrichStage (args : MainArgs) (co : Collaborators) (st : RunState) : RunState :=
  enrichBPPass args co.enrichBP (enrichIRPass args co.enrichIR st)

/-- Lines 168-191, the body of the per-rule loop for one catalog entry
`(finding_path, rule, spec)`: the violation record is created and the
metadata available in the rule is copied (lines 172-179); then `recurse` is
invoked (line 181) and on success `items`, `dashboard_name` (defaulted to
`??`), `checked_items` (defaulted to 0), `flagged_items = len(items)` and
`service` are assigned (lines 181-185); a raised exception is caught at the
rule boundary, reported, and only `checked_items = 0` and `flagged_items = 0`
are assigned (lines 186-191) — the `items`, `dashboard_name` and `service`
keys stay absent.  Returns the record and the diagnostics. -/
def processRule (tree : ConfigNode) (findingPath : String) (ruleName : String)
    (rule : RuleSpec) : Violation × List String :=
  let v : Violation :=
    { description := some rule.description
      path := some rule.rulePath
      level := some rule.level
      id_suffix := rule.id_suffix
      display_path := rule.display_path }
  match recurse tree rule tree (splitDots findingPath) [] with
  | Except.ok items =>
      ({ v with
          items := some items
          dashboard_name := some (rule.dashboard_name.getD "??")
          checked_items := some (rule.checked_items.getD 0)
          flagged_items := some items.length
          service := some ((splitDots findingPath).headD "") }, [])
  | Except.error msg =>
      ({ v with checked_items := some 0, flagged_items := some 0 },
       ["Failed to process rule defined in " ++ ruleName ++ ".json", msg])

/-- One iteration of the rule loop: evaluate the entry against the current
tree and store the resulting violation record under
`aws_config['services'][service]['violations'][rule]` (lines 168-191); an
absent service entry would raise `KeyError` at line 171, aborting the run. -/
def ruleStep (st : RunState) (e : CatalogEntry) : RunState :=
  if st.aborted.isSome then st else
  match dictGet st.svc (entryService e) with
  | none => { st with aborted := some ("KeyError: " ++ entryService e) }
  | some sd =>
      { st with
          svc := dictSet st.svc (entryService e)
            { sd with violations := (dictSet sd.violations e.2.1
                (processRule (servicesTree st.svc) e.1 e.2.1 e.2.2).1) }
          trace := st.trace ++ [Event.evalRule (entryService e) e.2.1]
          errors := st.errors ++ (processRule (servicesTree st.svc) e.1 e.2.1 e.2.2).2 }

/-- Lines 166-191: the rule loop over the whole catalog, in catalog order. -/
def ruleLoop (catalog : List CatalogEntry) (st : RunState) : RunState :=
  catalog.foldl ruleStep st

/-- Modelled from the spec: `tweak_cloudtrail_findings` (line 195) lives in
`AWSScout2.utils_cloudtrail`, which is not among the source files; per
section 4.3 of the specification it post-processes specific rules' existing
Violation records of one service after aggregation, so it is modelled as a
per-record transformation of the cloudtrail violations (it neither adds nor
removes records). -/
def tweaksStage (args : MainArgs) (tweak : String → Violation → Violation)
    (st : RunState) : RunState :=
  if st.aborted.isSome then st else
  if "cloudtrail" ∈ args.services then
    match dictGet st.svc "cloudtrail" with
    | none => st
    | some sd =>
        let sd := { sd with violations := sd.violations.map (fun p => (p.1, tweak p.1 p.2)) }
        { st with svc := dictSet st.svc "cloudtrail" sd }
  else st

/-- Lines 204-207: keep the items that are not listed in the exception entry
(membership by exact string equality). -/
def filterItems (items : List String) (excItems : List String) : List String :=
  items.filter (fun item => ¬ excItems.contains item)

/-- Lines 204-209 for one `(service, rule)` entry of the exception file: look
up the violation record (an absent service, an absent rule, or an absent
`items` key raises `KeyError`, aborting the run), filter its items and
recompute `flagged_items`. -/
def excStep (st : RunState) (service : String) (rule : String)
    (excItems : List String) : RunState :=
  if st.aborted.isSome then st else
  match dictGet st.svc service with
  | none => { st with aborted := some ("KeyError: " ++ service) }
  | some sd =>
      match dictGet sd.violations rule with
      | none => { st with aborted := some ("KeyError: " ++ rule) }
      | some v =>
          match v.items with
          | none => { st with aborted := some "KeyError: items" }
          | some items =>
              let filtered := filterItems items excItems
              let v := { v with items := some filtered,
                                flagged_items := some filtered.length }
              let sd := { sd with violations := dictSet sd.violations rule v }
              { st with svc := dictSet st.svc service sd }

/-- Lines 197-209: when `--exceptions` was given, the suppression file is
opened and parsed (a raised exception propagates uncaught, aborting the run),
then every listed `(service, rule)` entry is filtered in file order. -/
def exceptionsStage (excArg : Option (Except String ExcFile)) (st : RunState) : RunState :=
  if st.aborted.isSome then st else
  match excArg with
  | none => st
  | some (Except.error msg) =>
      { st with trace := st.trace ++ [Event.loadExceptions], aborted := some msg }
  | some (Except.ok excs) =>
      let st := { st with trace := st.trace ++ [Event.loadExceptions] }
      excs.foldl (fun st p => p.2.foldl (fun st q => excStep st p.1 q.1 q.2) st) st

/-- Lines 217-222: `create_report_metadata` is wrapped in a `try`; a raised
exception is caught and reported. -/
def metadataStage (res : Except String Unit) (st : RunState) : RunState :=
  if st.aborted.isSome then st else
  match res with
  | Except.ok _ => st
  | Except.error msg =>
      { st with errors := st.errors ++
          ["Failed to create the report dashboard metadata.", msg] }

/-- Lines 224-226: `create_scout_report` writes the final report; it is
reached only when no exception escaped an earlier stage. -/
def reportStage (st : RunState) : RunState :=
  if st.aborted.isSome then st else { st with trace := st.trace ++ [Event.report] }

/-- The state of `main` after local loading, fetching, resetting violations
and the analyzers (lines 80-148) — just before the enrichment passes. -/
def mainBeforeEnrich (args : MainArgs) (co : Collaborators) : RunState :=
  let svc0 := loadLocalStage args co
  let fr := fetchStage args co svc0
  let svc := analyzeStage co.analyze (resetViolationsStage args.services fr.1)
  { svc := svc, trace := [], errors := fr.2, aborted := none }

/-- The state of `main` after the enrichment passes (lines 150-162). -/
def mainAfterEnrich (args : MainArgs) (co : Collaborators) : RunState :=
  enrichStage args co (mainBeforeEnrich args co)

/-- The state of `main` after the rule loop (lines 166-191). -/
def mainAfterRules (args : MainArgs) (co : Collaborators)
    (catalog : List CatalogEntry) : RunState :=
  ruleLoop catalog (mainAfterEnrich args co)

/-- The state of `main` after the cloudtrail tweaks (lines 193-195). -/
def mainAfterTweaks (args : MainArgs) (co : Collaborators)
    (catalog : List CatalogEntry) : RunState :=
  tweaksStage args co.tweak (mainAfterRules args co catalog)

/-- The whole `main` pipeline of `Scout2.py` (lines 80-226). -/
def runMain (args : MainArgs) (co : Collaborators) (catalog : List CatalogEntry)
    (excArg : Option (Except String ExcFile)) : RunState :=
  reportStage (metadataStage co.metadataResult
    (exceptionsStage excArg (mainAfterTweaks args co catalog)))

/-- Look up the violation record of `(service, rule)` in the run state. -/
def violLookup (st : RunState) (service : String) (rule : String) : Option Violation :=
  (dictGet st.svc service).bind (fun sd => dictGet sd.violations rule)

/-- The key pairs `(service, rule)` mentioned by an exception file, in
processing order. -/
def excPairs (excs : ExcFile) : List (String × String × List String) :=
  excs.flatMap (fun p => p.2.map (fun q => (p.1, q.1, q.2)))

/-- Whether `(service, rule)` resolves to a violation record carrying an
`items` key — exactly the lookups performed by lines 205-209. -/
def hasItemsB (svc : List (String × ServiceData)) (s r : String) : Bool :=
  match dictGet svc s with
  | none => false
  | some sd =>
      match dictGet sd.violations r with
      | none => false
      | some v => v.items.isSome

/-- Fixture: a rule whose condition always raises, as injected by the per-rule
isolation property of section 8 of the specification. -/
def failRule : RuleSpec :=
  { description := "always raises", rulePath := "s.a", level := "danger",
    dashboard_name := some "DB",
    condition := fun _ _ => Except.error "boom" }

/-- Fixture: a rule that flags every leaf its path reaches. -/
def okRule : RuleSpec :=
  { description := "flag every leaf", rulePath := "s.a", level := "warning",
    condition := fun _ _ => Except.ok true, polarity := true }

/-- Fixture: a rule whose author-supplied denominator (1) is smaller than the
number of items its evaluation flags (2). -/
def overcountRule : RuleSpec :=
  { description := "two flags, one checked", rulePath := "s.*", level := "danger",
    checked_items := some 1,
    condition := fun _ _ => Except.ok true, polarity := true }

/-- Fixture: a one-service tree with a single leaf attribute. -/
def sampleTree : ConfigNode :=
  ConfigNode.map [("s", ConfigNode.map [("a", ConfigNode.str "x")])]

/-- Fixture: a one-service tree with two leaf attributes. -/
def twoLeafTree : ConfigNode :=
  ConfigNode.map [("s", ConfigNode.map [("a", ConfigNode.str "x"), ("b", ConfigNode.str "y")])]

/-- Fixture: a run state holding the service `s` of `sampleTree`. -/
def sampleState : RunState :=
  { svc := [("s", { config := ConfigNode.map [("a", ConfigNode.str "x")], violations := [] })] }

/-- Fixture: collaborators whose fetcher returns the `s` subtree of
`sampleTree` for every service. -/
def sampleCo : Collaborators :=
  { fetched := fun _ _ => Except.ok (ConfigNode.map [("a", ConfigNode.str "x")]) }

/-- Fixture: a run analyzing the single service `s`. -/
def sampleArgs : MainArgs := { services := ["s"], allServices := ["s"] }

/-- Fixture: a catalog with the one always-raising rule. -/
def failCatalog : List CatalogEntry := [("s.a", "r", failRule)]

/-- Fixture: a catalog with the one always-flagging rule. -/
def okCatalog : List CatalogEntry := [("s.a", "r", okRule)]

/-- Fixture: a well-formed exception file suppressing an item of rule `r` of
service `s`. -/
def sampleExc : Option (Except String ExcFile) :=
  some (Except.ok [("s", [("r", ["whatever"])])])

/-- Fixture: a malformed exception file (the parse raises). -/
def badExc : Option (Except String ExcFile) := some (Except.error "not valid JSON")

/-- Fixture: a violation record persisted by a previous run. -/
def oldViolation : Violation :=
  { description := some "stale finding", items := some ["x"], flagged_items := some 1 }

/-- Fixture: local data in which service `s3` carries a persisted violation. -/
def staleCo : Collaborators :=
  { localData := fun s => if s = "s3" then
      { config := ConfigNode.map [], violations := [("old", oldViolation)] } else {} }

/-- Fixture: a run selecting only `ec2` while `s3` local data exists. -/
def staleArgs : MainArgs := { services := ["ec2"], allServices := ["ec2", "s3"] }

/-- Fixture: a run selecting `s3` and `iam` but not `ec2`. -/
def enrichArgs : MainArgs := { services := ["s3", "iam"], allServices := ["s3", "iam"] }

/-- Fixture: a run selecting `ec2` and `iam`. -/
def bothArgs : MainArgs := { services := ["ec2", "iam"], allServices := ["ec2", "iam"] }

/-- Fixture: a run selecting `ec2`, `iam` and `s3`. -/
def allThreeArgs : MainArgs :=
  { services := ["ec2", "iam", "s3"], allServices := ["ec2", "iam", "s3"] }

/-- Fixture: collaborators whose Instance-Role enricher always raises after
partially mutating the ec2 configuration in place. -/
def failingEnrichCo : Collaborators :=
  { enrichIR := fun _ i => Except.error ("boom", ConfigNode.str "partial", i) }

/-- The item identifier of the section 8 scenario of the specification. -/
def scenarioItem : String := "ec2.regions.us-east-1.instances.i-1.public_ip"

/-- Fixture: the violation record produced for the always-raising rule. -/
def failedViolation : Violation :=
  { description := some "always raises", path := some "s.a", level := some "danger",
    checked_items := some 0, flagged_items := some 0 }

/-- Fixture: a violation record carrying an `items` key. -/
def sampleViol : Violation := { items := some ["x"], flagged_items := some 1 }

/-- Fixture: a service entry holding `sampleViol` under rule `r`. -/
def sampleSd : ServiceData :=
  { config := ConfigNode.map [], violations := [("r", sampleViol)] }

/-- Fixture: a run state holding `sampleSd` under service `s`. -/
def sampleViolState : RunState := { svc := [("s", sampleSd)] }

theorem dictGet_dictSet {α : Type} (d : List (String × α)) (k k' : String) (v : α) :
    dictGet (dictSet d k v) k' = if k' = k then some v else dictGet d k' := by
  induction d with
  | nil =>
      by_cases h : k' = k
      · simp [dictGet, dictSet, h]
      · simp [dictGet, dictSet, h, Ne.symm h]
  | cons p ps ih =>
      by_cases hp : p.1 = k
      · subst hp
        by_cases h : k' = p.1
        · subst h; simp [dictGet, dictSet]
        · simp [dictGet, dictSet, h, Ne.symm h]
      · by_cases hq : p.1 = k'
        · have hk : ¬ k' = k := fun hh => hp (hq.trans hh)
          simp [dictGet, dictSet, hp, hq, hk]
        · simp [dictGet, dictSet, hp, hq, ih]

theorem dictGet_dictUpdate {α : Type} (d : List (String × α)) (k k' : String) (f : α → α) :
    dictGet (dictUpdate d k f) k' = if k' = k then (dictGet d k).map f else dictGet d k' := by
  induction d with
  | nil =>
      by_cases h : k' = k <;> simp [dictGet, dictUpdate, h]
  | cons p ps ih =>
      by_cases hp : p.1 = k
      · subst hp
        by_cases h : k' = p.1
        · subst h; simp [dictGet, dictUpdate]
        · simp [dictGet, dictUpdate, h, Ne.symm h, ih]
      · by_cases hq : p.1 = k'
        · have hk : ¬ k' = k := fun hh => hp (hq.trans hh)
          simp [dictGet, dictUpdate, hp, hq, hk]
        · simp [dictGet, dictUpdate, hp, hq, ih]

theorem dictGet_mapVal {α β : Type} (d : List (String × α)) (g : String → α → β) (k : String) :
    dictGet (d.map (fun p => (p.1, g p.1 p.2))) k = (dictGet d k).map (g k) := by
  induction d with
  | nil => simp [dictGet]
  | cons p ps ih =>
      by_cases h : p.1 = k
      · subst h; simp [dictGet]
      · simp [dictGet, h, ih]

theorem dictGet_isSome_dictSet {α : Type} (d : List (String × α)) (k k' : String) (v : α)
    (h : (dictGet d k').isSome) : (dictGet (dictSet d k v) k').isSome := by
  rw [dictGet_dictSet]
  by_cases hk : k' = k <;> simp [hk, h]

theorem foldl_preserve {α β : Type} (P : β → Prop) (step : β → α → β) (l : List α) (acc : β)
    (h0 : P acc) (hstep : ∀ b a, a ∈ l → P b → P (step b a)) : P (l.foldl step acc) := by
  induction l generalizing acc with
  | nil => exact h0
  | cons x xs ih =>
      exact ih (step acc x) (hstep acc x (List.mem_cons_self x xs) h0)
        (fun b a ha hb => hstep b a (List.mem_cons_of_mem x ha) hb)

theorem mem_filterItems (I E : List String) (x : String) :
    x ∈ filterItems I E ↔ x ∈ I ∧ x ∉ E := by
  simp [filterItems, List.mem_filter]

theorem filterItems_toFinset (I E : List String) :
    (filterItems I E).toFinset = I.toFinset \ E.toFinset := by
  ext x
  simp [mem_filterItems]

theorem filterItems_nil (I : List String) : filterItems I [] = I := by
  simp [filterItems]

theorem filterItems_idem (I E : List String) :
    filterItems (filterItems I E) E = filterItems I E := by
  simp [filterItems, List.filter_filter]

theorem dictGet_isSome_dictUpdate {α : Type} (d : List (String × α)) (k k' : String)
    (f : α → α) : (dictGet (dictUpdate d k f) k').isSome = (dictGet d k').isSome := by
  rw [dictGet_dictUpdate]
  by_cases h : k' = k <;> simp [h]

theorem fetchStep_presence_mono (args : MainArgs) (co : Collaborators)
    (acc : List (String × ServiceData) × List String)
    (service s : String) (h : (dictGet acc.1 s).isSome) :
    (dictGet (fetchStep args co acc service).1 s).isSome := by
  have hsvc : (dictGet (if (dictGet acc.1 service).isSome then acc.1
      else dictSet acc.1 service emptyService) s).isSome := by
    by_cases hp : (dictGet acc.1 service).isSome
    · rwa [if_pos hp]
    · rw [if_neg hp]
      exact dictGet_isSome_dictSet _ _ _ _ h
  simp only [fetchStep]
  split
  · exact dictGet_isSome_dictSet _ _ _ _ hsvc
  · split
    · split
      · exact dictGet_isSome_dictSet _ _ _ _ hsvc
      · exact hsvc
    · exact hsvc

theorem fetchStep_presence_self (args : MainArgs) (co : Collaborators)
    (acc : List (String × ServiceData) × List String) (service : String) :
    (dictGet (fetchStep args co acc service).1 service).isSome := by
  have hsvc : (dictGet (if (dictGet acc.1 service).isSome then acc.1
      else dictSet acc.1 service emptyService) service).isSome := by
    by_cases hp : (dictGet acc.1 service).isSome
    · rwa [if_pos hp]
    · rw [if_neg hp, dictGet_dictSet]
      simp
  simp only [fetchStep]
  split
  · rw [dictGet_dictSet]
    simp
  · split
    · split
      · rw [dictGet_dictSet]
        simp
      · exact hsvc
    · exact hsvc

theorem fetch_foldl_presence (args : MainArgs) (co : Collaborators) (l : List String)
    (acc : List (String × ServiceData) × List String) (s : String) (hs : s ∈ l) :
    (dictGet ((l.foldl (fetchStep args co) acc).1) s).isSome := by
  induction l generalizing acc with
  | nil => cases hs
  | cons a rest ih =>
      rcases List.mem_cons.mp hs with h | h
      · subst h
        simp only [List.foldl_cons]
        exact foldl_preserve (fun b => (dictGet b.1 s).isSome = true) (fetchStep args co) rest _
          (fetchStep_presence_self args co acc s)
          (fun b x _ hb => fetchStep_presence_mono args co b x s hb)
      · simp only [List.foldl_cons]
        exact ih _ h

theorem fetchStage_presence (args : MainArgs) (co : Collaborators)
    (svc0 : List (String × ServiceData)) (s : String) (hs : s ∈ args.services) :
    (dictGet (fetchStage args co svc0).1 s).isSome :=
  fetch_foldl_presence args co args.services (svc0, []) s hs

theorem resetViolations_presence (services : List String)
    (svc : List (String × ServiceData)) (s : String) :
    (dictGet (resetViolationsStage services svc) s).isSome = (dictGet svc s).isSome := by
  induction services generalizing svc with
  | nil => rfl
  | cons a rest ih =>
      simp only [resetViolationsStage, List.foldl_cons] at *
      rw [ih, dictGet_isSome_dictUpdate]

theorem resetViolations_empty (services : List String) (svc : List (String × ServiceData))
    (s : String) (hs : s ∈ services) :
    ∀ sd, dictGet (resetViolationsStage services svc) s = some sd → sd.violations = [] := by
  induction services generalizing svc with
  | nil => cases hs
  | cons a rest ih =>
      rcases List.mem_cons.mp hs with h | h
      · subst h
        simp only [resetViolationsStage, List.foldl_cons]
        refine foldl_preserve
          (fun svc : List (String × ServiceData) =>
            ∀ sd : ServiceData, dictGet svc s = some sd → sd.violations = [])
          (fun svc k => dictUpdate svc k
            (fun sd : ServiceData => { sd with violations := [] })) rest _ ?_ ?_
        · intro sd hsd
          rw [dictGet_dictUpdate, if_pos rfl] at hsd
          rcases Option.map_eq_some'.mp hsd with ⟨sd0, _, rfl⟩
          rfl
        · intro b k _ hb sd hsd
          rw [dictGet_dictUpdate] at hsd
          by_cases hks : s = k
          · rw [if_pos hks] at hsd
            rcases Option.map_eq_some'.mp hsd with ⟨sd0, _, rfl⟩
            rfl
          · rw [if_neg hks] at hsd
            exact hb sd hsd
      · simp only [resetViolationsStage, List.foldl_cons]
        exact ih _ h

theorem dictGet_analyzeStage (f : String → ConfigNode → ConfigNode)
    (svc : List (String × ServiceData)) (s : String) :
    dictGet (analyzeStage f svc) s =
      (dictGet svc s).map (fun sd => { sd with config := f s sd.config }) := by
  induction svc with
  | nil => rfl
  | cons p ps ih =>
      by_cases h : p.1 = s
      · subst h
        simp [analyzeStage, dictGet]
      · simp only [analyzeStage, List.map_cons] at *
        simp [dictGet, h, ih]

theorem mainBeforeEnrich_aborted (args : MainArgs) (co : Collaborators) :
    (mainBeforeEnrich args co).aborted = none := rfl

theorem mainBeforeEnrich_trace (args : MainArgs) (co : Collaborators) :
    (mainBeforeEnrich args co).trace = [] := rfl

theorem mainBeforeEnrich_presence (args : MainArgs) (co : Collaborators) (s : String)
    (hs : s ∈ args.services) : (dictGet (mainBeforeEnrich args co).svc s).isSome := by
  show (dictGet (analyzeStage co.analyze (resetViolationsStage args.services
      (fetchStage args co (loadLocalStage args co)).1)) s).isSome
  rw [dictGet_analyzeStage]
  have h2 : (dictGet (resetViolationsStage args.services
      (fetchStage args co (loadLocalStage args co)).1) s).isSome := by
    rw [resetViolations_presence]
    exact fetchStage_presence args co _ s hs
  cases hx : dictGet (resetViolationsStage args.services
      (fetchStage args co (loadLocalStage args co)).1) s with
  | none => rw [hx] at h2; cases h2
  | some sd => rfl

theorem mainBeforeEnrich_violations_empty (args : MainArgs) (co : Collaborators)
    (s : String) (hs : s ∈ args.services) :
    ∀ sd, dictGet (mainBeforeEnrich args co).svc s = some sd → sd.violations = [] := by
  intro sd hsd
  have : dictGet (analyzeStage co.analyze (resetViolationsStage args.services
      (fetchStage args co (loadLocalStage args co)).1)) s = some sd := hsd
  rw [dictGet_analyzeStage] at this
  rcases Option.map_eq_some'.mp this with ⟨sd0, hsd0, rfl⟩
  exact resetViolations_empty args.services _ s hs sd0 hsd0

theorem violLookup_dictSet_config (svc : List (String × ServiceData)) (k : String)
    (sd sd' : ServiceData) (hk : dictGet svc k = some sd)
    (hv : sd'.violations = sd.violations) (s r : String) :
    (dictGet (dictSet svc k sd') s).bind (fun x => dictGet x.violations r) =
      (dictGet svc s).bind (fun x => dictGet x.violations r) := by
  rw [dictGet_dictSet]
  by_cases h : s = k
  · subst h
    rw [hk]
    simp [hv]
  · rw [if_neg h]

theorem violLookup_enrich_write (svc : List (String × ServiceData)) (k1 k2 : String)
    (e i : ServiceData) (c1 c2 : ConfigNode) (hne : k2 ≠ k1)
    (h1 : dictGet svc k1 = some e) (h2 : dictGet svc k2 = some i) (s r : String) :
    (dictGet (dictSet (dictSet svc k1 { e with config := c1 })
        k2 { i with config := c2 }) s).bind (fun x => dictGet x.violations r) =
      (dictGet svc s).bind (fun x => dictGet x.violations r) := by
  have h3 : dictGet (dictSet svc k1 { e with config := c1 }) k2 = some i := by
    rw [dictGet_dictSet, if_neg hne, h2]
  rw [violLookup_dictSet_config _ k2 i { i with config := c2 } h3 rfl s r,
      violLookup_dictSet_config _ k1 e { e with config := c1 } h1 rfl s r]

theorem enrichIRPass_aborted (args : MainArgs)
    (f : ConfigNode → ConfigNode →
      Except (String × ConfigNode × ConfigNode) (ConfigNode × ConfigNode)) (st : RunState) :
    (enrichIRPass args f st).aborted = st.aborted := by
  unfold enrichIRPass
  repeat' split
  all_goals rfl

theorem enrichBPPass_aborted (args : MainArgs)
    (f : ConfigNode → ConfigNode →
      Except (String × ConfigNode × ConfigNode) (ConfigNode × ConfigNode)) (st : RunState) :
    (enrichBPPass args f st).aborted = st.aborted := by
  unfold enrichBPPass
  repeat' split
  all_goals rfl

theorem enrichIRPass_violLookup (args : MainArgs)
    (f : ConfigNode → ConfigNode →
      Except (String × ConfigNode × ConfigNode) (ConfigNode × ConfigNode)) (st : RunState)
    (s r : String) : violLookup (enrichIRPass args f st) s r = violLookup st s r := by
  cases hab : st.aborted with
  | some m => simp [enrichIRPass, hab]
  | none =>
      by_cases hsel : "ec2" ∈ args.services ∧ "iam" ∈ args.services
      · cases he : dictGet st.svc "ec2" with
        | none => simp [enrichIRPass, hab, hsel.1, hsel.2, he, violLookup]
        | some e =>
            cases hi : dictGet st.svc "iam" with
            | none => simp [enrichIRPass, hab, hsel.1, hsel.2, he, hi, violLookup]
            | some i =>
                cases hf : f e.config i.config with
                | ok pr =>
                    obtain ⟨ecfg, icfg⟩ := pr
                    have hpass : enrichIRPass args f st =
                        { st with trace := st.trace ++ [Event.enrichInstancesRoles],
                                  svc := (dictSet (dictSet st.svc "ec2"
                                    { e with config := ecfg })
                                    "iam" { i with config := icfg }) } := by
                      simp [enrichIRPass, hab, hsel.1, hsel.2, he, hi, hf]
                    rw [hpass]
                    exact violLookup_enrich_write st.svc "ec2" "iam" e i ecfg icfg
                      (by decide) he hi s r
                | error p =>
                    obtain ⟨msg, ecfg, icfg⟩ := p
                    have hpass : enrichIRPass args f st =
                        { st with trace := st.trace ++ [Event.enrichInstancesRoles],
                                  svc := (dictSet (dictSet st.svc "ec2"
                                    { e with config := ecfg })
                                    "iam" { i with config := icfg })
                                  errors := (st.errors ++
                                    ["Error: EC2 or IAM configuration is missing.", msg]) } := by
                      simp [enrichIRPass, hab, hsel.1, hsel.2, he, hi, hf]
                    rw [hpass]
                    exact violLookup_enrich_write st.svc "ec2" "iam" e i ecfg icfg
                      (by decide) he hi s r
      · simp [enrichIRPass, hab, hsel]

theorem enrichBPPass_violLookup (args : MainArgs)
    (f : ConfigNode → ConfigNode →
      Except (String × ConfigNode × ConfigNode) (ConfigNode × ConfigNode)) (st : RunState)
    (s r : String) : violLookup (enrichBPPass args f st) s r = violLookup st s r := by
  cases hab : st.aborted with
  | some m => simp [enrichBPPass, hab]
  | none =>
      by_cases hsel : "s3" ∈ args.services ∧ "iam" ∈ args.services
      · cases he : dictGet st.svc "s3" with
        | none => simp [enrichBPPass, hab, hsel.1, hsel.2, he, violLookup]
        | some e =>
            cases hi : dictGet st.svc "iam" with
            | none => simp [enrichBPPass, hab, hsel.1, hsel.2, he, hi, violLookup]
            | some i =>
                cases hf : f e.config i.config with
                | ok pr =>
                    obtain ⟨scfg, icfg⟩ := pr
                    have hpass : enrichBPPass args f st =
                        { st with trace := st.trace ++ [Event.enrichPoliciesBuckets],
                                  svc := (dictSet (dictSet st.svc "s3"
                                    { e with config := scfg })
                                    "iam" { i with config := icfg }) } := by
                      simp [enrichBPPass, hab, hsel.1, hsel.2, he, hi, hf]
                    rw [hpass]
                    exact violLookup_enrich_write st.svc "s3" "iam" e i scfg icfg
                      (by decide) he hi s r
                | error p =>
                    obtain ⟨msg, scfg, icfg⟩ := p
                    have hpass : enrichBPPass args f st =
                        { st with trace := st.trace ++ [Event.enrichPoliciesBuckets],
                                  svc := (dictSet (dictSet st.svc "s3"
                                    { e with config := scfg })
                                    "iam" { i with config := icfg })
                                  errors := (st.errors ++
                                    ["Error: s3 or IAM configuration is missing.", msg]) } := by
                      simp [enrichBPPass, hab, hsel.1, hsel.2, he, hi, hf]
                    rw [hpass]
                    exact violLookup_enrich_write st.svc "s3" "iam" e i scfg icfg
                      (by decide) he hi s r
      · simp [enrichBPPass, hab, hsel]

theorem enrichIRPass_presence (args : MainArgs)
    (f : ConfigNode → ConfigNode →
      Except (String × ConfigNode × ConfigNode) (ConfigNode × ConfigNode)) (st : RunState)
    (k : String) (h : (dictGet st.svc k).isSome) :
    (dictGet (enrichIRPass args f st).svc k).isSome := by
  unfold enrichIRPass
  repeat' split
  all_goals try exact h
  all_goals exact dictGet_isSome_dictSet _ _ _ _ (dictGet_isSome_dictSet _ _ _ _ h)

theorem enrichBPPass_presence (args : MainArgs)
    (f : ConfigNode → ConfigNode →
      Except (String × ConfigNode × ConfigNode) (ConfigNode × ConfigNode)) (st : RunState)
    (k : String) (h : (dictGet st.svc k).isSome) :
    (dictGet (enrichBPPass args f st).svc k).isSome := by
  unfold enrichBPPass
  repeat' split
  all_goals try exact h
  all_goals exact dictGet_isSome_dictSet _ _ _ _ (dictGet_isSome_dictSet _ _ _ _ h)

theorem enrichIRPass_other (args : MainArgs)
    (f : ConfigNode → ConfigNode →
      Except (String × ConfigNode × ConfigNode) (ConfigNode × ConfigNode)) (st : RunState)
    (k : String) (hk1 : ¬ k = "ec2") (hk2 : ¬ k = "iam") :
    dictGet (enrichIRPass args f st).svc k = dictGet st.svc k := by
  unfold enrichIRPass
  repeat' split
  all_goals try rfl
  all_goals rw [dictGet_dictSet, if_neg hk2, dictGet_dictSet, if_neg hk1]

theorem enrichBPPass_other (args : MainArgs)
    (f : ConfigNode → ConfigNode →
      Except (String × ConfigNode × ConfigNode) (ConfigNode × ConfigNode)) (st : RunState)
    (k : String) (hk1 : ¬ k = "s3") (hk2 : ¬ k = "iam") :
    dictGet (enrichBPPass args f st).svc k = dictGet st.svc k := by
  unfold enrichBPPass
  repeat' split
  all_goals try rfl
  all_goals rw [dictGet_dictSet, if_neg hk2, dictGet_dictSet, if_neg hk1]

theorem enrichIRPass_trace (args : MainArgs)
    (f : ConfigNode → ConfigNode →
      Except (String × ConfigNode × ConfigNode) (ConfigNode × ConfigNode)) (st : RunState) :
    ∃ tl, (enrichIRPass args f st).trace = st.trace ++ tl ∧
      ∀ ev ∈ tl, ev = Event.enrichInstancesRoles := by
  unfold enrichIRPass
  repeat' split
  all_goals first
    | exact ⟨[], (List.append_nil _).symm, fun ev hev => absurd hev (List.not_mem_nil ev)⟩
    | exact ⟨[Event.enrichInstancesRoles], rfl, fun ev hev => List.mem_singleton.mp hev⟩

theorem enrichBPPass_trace (args : MainArgs)
    (f : ConfigNode → ConfigNode →
      Except (String × ConfigNode × ConfigNode) (ConfigNode × ConfigNode)) (st : RunState) :
    ∃ tl, (enrichBPPass args f st).trace = st.trace ++ tl ∧
      ∀ ev ∈ tl, ev = Event.enrichPoliciesBuckets := by
  unfold enrichBPPass
  repeat' split
  all_goals first
    | exact ⟨[], (List.append_nil _).symm, fun ev hev => absurd hev (List.not_mem_nil ev)⟩
    | exact ⟨[Event.enrichPoliciesBuckets], rfl, fun ev hev => List.mem_singleton.mp hev⟩

theorem enrichIRPass_trace_selected (args : MainArgs)
    (f : ConfigNode → ConfigNode →
      Except (String × ConfigNode × ConfigNode) (ConfigNode × ConfigNode)) (st : RunState)
    (hab : st.aborted = none) (h2 : "ec2" ∈ args.services) (h3 : "iam" ∈ args.services)
    (he : (dictGet st.svc "ec2").isSome) (hi : (dictGet st.svc "iam").isSome) :
    (enrichIRPass args f st).trace = st.trace ++ [Event.enrichInstancesRoles] := by
  rcases Option.isSome_iff_exists.mp he with ⟨e, he2⟩
  rcases Option.isSome_iff_exists.mp hi with ⟨i, hi2⟩
  cases hf : f e.config i.config with
  | ok pr =>
      obtain ⟨ecfg, icfg⟩ := pr
      simp [enrichIRPass, hab, he2, hi2, hf, h2, h3]
  | error p =>
      obtain ⟨msg, ecfg, icfg⟩ := p
      simp [enrichIRPass, hab, he2, hi2, hf, h2, h3]

theorem enrichBPPass_trace_selected (args : MainArgs)
    (f : ConfigNode → ConfigNode →
      Except (String × ConfigNode × ConfigNode) (ConfigNode × ConfigNode)) (st : RunState)
    (hab : st.aborted = none) (h2 : "s3" ∈ args.services) (h3 : "iam" ∈ args.services)
    (he : (dictGet st.svc "s3").isSome) (hi : (dictGet st.svc "iam").isSome) :
    (enrichBPPass args f st).trace = st.trace ++ [Event.enrichPoliciesBuckets] := by
  rcases Option.isSome_iff_exists.mp he with ⟨e, he2⟩
  rcases Option.isSome_iff_exists.mp hi with ⟨i, hi2⟩
  cases hf : f e.config i.config with
  | ok pr =>
      obtain ⟨scfg, icfg⟩ := pr
      simp [enrichBPPass, hab, he2, hi2, hf, h2, h3]
  | error p =>
      obtain ⟨msg, scfg, icfg⟩ := p
      simp [enrichBPPass, hab, he2, hi2, hf, h2, h3]

theorem enrichIRPass_errors_of_fail (args : MainArgs)
    (f : ConfigNode → ConfigNode →
      Except (String × ConfigNode × ConfigNode) (ConfigNode × ConfigNode)) (st : RunState)
    (hab : st.aborted = none) (h2 : "ec2" ∈ args.services) (h3 : "iam" ∈ args.services)
    (hfail : ∀ a b, ∃ p, f a b = Except.error p) :
    "Error: EC2 or IAM configuration is missing." ∈ (enrichIRPass args f st).errors := by
  cases he : dictGet st.svc "ec2" with
  | none => simp [enrichIRPass, hab, he, h2, h3]
  | some e =>
      cases hi : dictGet st.svc "iam" with
      | none => simp [enrichIRPass, hab, he, hi, h2, h3]
      | some i =>
          obtain ⟨⟨msg, ecfg, icfg⟩, hp⟩ := hfail e.config i.config
          simp [enrichIRPass, hab, he, hi, hp, h2, h3]

theorem enrichIRPass_errors_mono (args : MainArgs)
    (f : ConfigNode → ConfigNode →
      Except (String × ConfigNode × ConfigNode) (ConfigNode × ConfigNode)) (st : RunState)
    (x : String) (hx : x ∈ st.errors) : x ∈ (enrichIRPass args f st).errors := by
  unfold enrichIRPass
  repeat' split
  all_goals simp [hx]

theorem enrichBPPass_errors_mono (args : MainArgs)
    (f : ConfigNode → ConfigNode →
      Except (String × ConfigNode × ConfigNode) (ConfigNode × ConfigNode)) (st : RunState)
    (x : String) (hx : x ∈ st.errors) : x ∈ (enrichBPPass args f st).errors := by
  unfold enrichBPPass
  repeat' split
  all_goals simp [hx]

theorem servicesTree_dictSet (svc : List (String × ServiceData)) (k : String)
    (sd sd' : ServiceData) (hk : dictGet svc k = some sd) (hc : sd'.config = sd.config) :
    servicesTree (dictSet svc k sd') = servicesTree svc := by
  unfold servicesTree
  congr 1
  induction svc with
  | nil => cases hk
  | cons p ps ih =>
      by_cases h : p.1 = k
      · simp only [dictGet, if_pos h] at hk
        injection hk with hk
        simp [dictSet, h, hc, hk]
      · simp only [dictGet, if_neg h] at hk
        simp [dictSet, h, ih hk]

theorem ruleStep_eq_of_aborted (st : RunState) (e : CatalogEntry) (m : String)
    (hab : st.aborted = some m) : ruleStep st e = st := by
  simp [ruleStep, hab]

theorem ruleStep_presence (st : RunState) (e : CatalogEntry) (k : String)
    (h : (dictGet st.svc k).isSome) : (dictGet (ruleStep st e).svc k).isSome := by
  unfold ruleStep
  repeat' split
  all_goals try exact h
  exact dictGet_isSome_dictSet _ _ _ _ h

theorem ruleStep_tree (st : RunState) (e : CatalogEntry) :
    servicesTree (ruleStep st e).svc = servicesTree st.svc := by
  unfold ruleStep
  repeat' split
  all_goals try rfl
  rename_i sd heq
  exact servicesTree_dictSet st.svc (entryService e) sd _ heq rfl

theorem ruleStep_aborted (st : RunState) (e : CatalogEntry) (hab : st.aborted = none)
    (h : (dictGet st.svc (entryService e)).isSome) : (ruleStep st e).aborted = none := by
  rcases Option.isSome_iff_exists.mp h with ⟨sd, hsd⟩
  simp [ruleStep, hab, hsd]

theorem ruleStep_trace (st : RunState) (e : CatalogEntry) (hab : st.aborted = none)
    (h : (dictGet st.svc (entryService e)).isSome) :
    (ruleStep st e).trace = st.trace ++ [Event.evalRule (entryService e) e.2.1] := by
  rcases Option.isSome_iff_exists.mp h with ⟨sd, hsd⟩
  simp [ruleStep, hab, hsd]

theorem ruleStep_trace_sub (st : RunState) (e : CatalogEntry) :
    ∃ tl, (ruleStep st e).trace = st.trace ++ tl ∧
      ∀ ev ∈ tl, ∃ a b, ev = Event.evalRule a b := by
  unfold ruleStep
  repeat' split
  all_goals first
    | exact ⟨[], (List.append_nil _).symm, fun ev hev => absurd hev (List.not_mem_nil ev)⟩
    | exact ⟨[Event.evalRule (entryService e) e.2.1], rfl,
        fun ev hev => ⟨entryService e, e.2.1, List.mem_singleton.mp hev⟩⟩

theorem ruleStep_errors (st : RunState) (e : CatalogEntry) (hab : st.aborted = none)
    (h : (dictGet st.svc (entryService e)).isSome) :
    (ruleStep st e).errors =
      st.errors ++ (processRule (servicesTree st.svc) e.1 e.2.1 e.2.2).2 := by
  rcases Option.isSome_iff_exists.mp h with ⟨sd, hsd⟩
  simp [ruleStep, hab, hsd]

theorem ruleStep_errors_mono (st : RunState) (e : CatalogEntry) (x : String)
    (hx : x ∈ st.errors) : x ∈ (ruleStep st e).errors := by
  unfold ruleStep
  repeat' split
  all_goals simp [hx]

theorem ruleStep_violLookup_self (st : RunState) (e : CatalogEntry) (sd : ServiceData)
    (hab : st.aborted = none) (hsd : dictGet st.svc (entryService e) = some sd) :
    violLookup (ruleStep st e) (entryService e) e.2.1 =
      some (processRule (servicesTree st.svc) e.1 e.2.1 e.2.2).1 := by
  simp only [ruleStep, hab, Option.isSome_none, Bool.false_eq_true, if_false, hsd]
  unfold violLookup
  simp only [dictGet_dictSet, if_pos rfl]
  simp [dictGet_dictSet]

theorem ruleStep_violLookup_other (st : RunState) (e : CatalogEntry) (s r : String)
    (hne : ¬(entryService e = s ∧ e.2.1 = r)) :
    violLookup (ruleStep st e) s r = violLookup st s r := by
  unfold ruleStep
  repeat' split
  all_goals try rfl
  rename_i sd heq
  unfold violLookup
  rw [dictGet_dictSet]
  by_cases hs : s = entryService e
  · subst hs
    rw [if_pos rfl, heq]
    simp only [Option.some_bind']
    rw [dictGet_dictSet]
    have hr : ¬ r = e.2.1 := fun hr => hne ⟨rfl, hr.symm⟩
    rw [if_neg hr]
  · rw [if_neg hs]

theorem ruleLoop_presence (catalog : List CatalogEntry) (st : RunState) (k : String)
    (h : (dictGet st.svc k).isSome) : (dictGet (ruleLoop catalog st).svc k).isSome := by
  unfold ruleLoop
  exact foldl_preserve (fun b => (dictGet b.svc k).isSome = true) ruleStep catalog st h
    (fun b e _ hb => ruleStep_presence b e k hb)

theorem ruleLoop_tree (catalog : List CatalogEntry) (st : RunState) :
    servicesTree (ruleLoop catalog st).svc = servicesTree st.svc := by
  unfold ruleLoop
  exact foldl_preserve (fun b => servicesTree b.svc = servicesTree st.svc) ruleStep catalog st
    rfl (fun b e _ hb => (ruleStep_tree b e).trans hb)

theorem ruleLoop_aborted (catalog : List CatalogEntry) (st : RunState)
    (hab : st.aborted = none)
    (hpres : ∀ e ∈ catalog, (dictGet st.svc (entryService e)).isSome) :
    (ruleLoop catalog st).aborted = none := by
  unfold ruleLoop
  have h := foldl_preserve
    (fun b => b.aborted = none ∧
      ∀ e ∈ catalog, (dictGet b.svc (entryService e)).isSome = true)
    ruleStep catalog st ⟨hab, hpres⟩
    (fun b e he hb => ⟨ruleStep_aborted b e hb.1 (hb.2 e he),
      fun e2 he2 => ruleStep_presence b e (entryService e2) (hb.2 e2 he2)⟩)
  exact h.1

theorem ruleLoop_errors_mono (catalog : List CatalogEntry) (st : RunState) (x : String)
    (hx : x ∈ st.errors) : x ∈ (ruleLoop catalog st).errors := by
  unfold ruleLoop
  exact foldl_preserve (fun b => x ∈ b.errors) ruleStep catalog st hx
    (fun b e _ hb => ruleStep_errors_mono b e x hb)

theorem ruleLoop_trace (catalog : List CatalogEntry) (st : RunState)
    (hab : st.aborted = none)
    (hpres : ∀ e ∈ catalog, (dictGet st.svc (entryService e)).isSome) :
    (ruleLoop catalog st).trace =
      st.trace ++ catalog.map (fun e => Event.evalRule (entryService e) e.2.1) := by
  induction catalog generalizing st with
  | nil => simp [ruleLoop]
  | cons e rest ih =>
      have hpe := hpres e (List.mem_cons_self e rest)
      have hab1 := ruleStep_aborted st e hab hpe
      have hpres1 : ∀ x ∈ rest, (dictGet (ruleStep st e).svc (entryService x)).isSome :=
        fun x hx => ruleStep_presence st e _ (hpres x (List.mem_cons_of_mem _ hx))
      show (ruleLoop rest (ruleStep st e)).trace = _
      rw [ih (ruleStep st e) hab1 hpres1, ruleStep_trace st e hab hpe]
      simp

theorem ruleLoop_errors (catalog : List CatalogEntry) (st : RunState)
    (hab : st.aborted = none)
    (hpres : ∀ e ∈ catalog, (dictGet st.svc (entryService e)).isSome) :
    (ruleLoop catalog st).errors =
      st.errors ++ catalog.flatMap
        (fun e => (processRule (servicesTree st.svc) e.1 e.2.1 e.2.2).2) := by
  induction catalog generalizing st with
  | nil => simp [ruleLoop]
  | cons e rest ih =>
      have hpe := hpres e (List.mem_cons_self e rest)
      have hab1 := ruleStep_aborted st e hab hpe
      have hpres1 : ∀ x ∈ rest, (dictGet (ruleStep st e).svc (entryService x)).isSome :=
        fun x hx => ruleStep_presence st e _ (hpres x (List.mem_cons_of_mem _ hx))
      show (ruleLoop rest (ruleStep st e)).errors = _
      rw [ih (ruleStep st e) hab1 hpres1, ruleStep_tree st e,
          ruleStep_errors st e hab hpe]
      simp

theorem ruleLoop_violLookup_other (catalog : List CatalogEntry) (st : RunState)
    (s r : String) (h : ∀ e ∈ catalog, ¬(entryService e = s ∧ e.2.1 = r)) :
    violLookup (ruleLoop catalog st) s r = violLookup st s r := by
  unfold ruleLoop
  exact foldl_preserve (fun b => violLookup b s r = violLookup st s r) ruleStep catalog st rfl
    (fun b e he hb => (ruleStep_violLookup_other b e s r (h e he)).trans hb)

theorem ruleLoop_violLookup (catalog : List CatalogEntry) (st : RunState)
    (hab : st.aborted = none)
    (hpres : ∀ e ∈ catalog, (dictGet st.svc (entryService e)).isSome)
    (hnodup : (catalog.map (fun e => (entryService e, e.2.1))).Nodup) :
    ∀ e ∈ catalog, violLookup (ruleLoop catalog st) (entryService e) e.2.1 =
      some (processRule (servicesTree st.svc) e.1 e.2.1 e.2.2).1 := by
  induction catalog generalizing st with
  | nil => intro e he; cases he
  | cons e0 rest ih =>
      intro e he
      have hpe0 := hpres e0 (List.mem_cons_self e0 rest)
      rcases Option.isSome_iff_exists.mp hpe0 with ⟨sd, hsd⟩
      have hab1 := ruleStep_aborted st e0 hab hpe0
      have hpres1 : ∀ x ∈ rest, (dictGet (ruleStep st e0).svc (entryService x)).isSome :=
        fun x hx => ruleStep_presence st e0 _ (hpres x (List.mem_cons_of_mem _ hx))
      have hnodups := List.nodup_cons.mp hnodup
      rcases List.mem_cons.mp he with he0 | her
      · subst he0
        have hkey : ∀ x ∈ rest, ¬(entryService x = entryService e ∧ x.2.1 = e.2.1) := by
          rintro x hx ⟨h1, h2⟩
          exact hnodups.1 (List.mem_map.mpr ⟨x, hx, by simp [h1, h2]⟩)
        show violLookup (ruleLoop rest (ruleStep st e)) _ _ = _
        rw [ruleLoop_violLookup_other rest (ruleStep st e) _ _ hkey]
        exact ruleStep_violLookup_self st e sd hab hsd
      · have hres := ih (ruleStep st e0) hab1 hpres1 hnodups.2 e her
        rw [ruleStep_tree st e0] at hres
        exact hres

theorem ruleStep_violLookup_isSome_inv (st : RunState) (e : CatalogEntry) (s r : String)
    (h : (violLookup (ruleStep st e) s r).isSome) :
    (violLookup st s r).isSome ∨ r = e.2.1 := by
  by_cases hk : entryService e = s ∧ e.2.1 = r
  · right
    exact hk.2.symm
  · left
    rwa [ruleStep_violLookup_other st e s r hk] at h

theorem ruleLoop_violLookup_isSome_inv (catalog : List CatalogEntry) (st : RunState)
    (s r : String) (h : (violLookup (ruleLoop catalog st) s r).isSome) :
    (violLookup st s r).isSome ∨ r ∈ catalog.map (fun e => e.2.1) := by
  induction catalog generalizing st with
  | nil => left; exact h
  | cons e rest ih =>
      have h2 : (violLookup (ruleLoop rest (ruleStep st e)) s r).isSome := h
      rcases ih (ruleStep st e) h2 with h3 | h4
      · rcases ruleStep_violLookup_isSome_inv st e s r h3 with h5 | h6
        · left; exact h5
        · right; simp [h6]
      · right
        simp only [List.map_cons, List.mem_cons]
        right
        exact h4

theorem ruleLoop_trace_sub (catalog : List CatalogEntry) (st : RunState) :
    ∃ tl, (ruleLoop catalog st).trace = st.trace ++ tl ∧
      ∀ ev ∈ tl, ∃ a b, ev = Event.evalRule a b := by
  induction catalog generalizing st with
  | nil =>
      exact ⟨[], by simp [ruleLoop], fun ev hev => absurd hev (List.not_mem_nil ev)⟩
  | cons e rest ih =>
      rcases ruleStep_trace_sub st e with ⟨t1, h1, hm1⟩
      rcases ih (ruleStep st e) with ⟨t2, h2, hm2⟩
      refine ⟨t1 ++ t2, ?_, ?_⟩
      · show (ruleLoop rest (ruleStep st e)).trace = _
        rw [h2, h1, List.append_assoc]
      · intro ev hev
        rcases List.mem_append.mp hev with h | h
        · exact hm1 ev h
        · exact hm2 ev h

theorem isSome_opmap {α β : Type} (o : Option α) (f : α → β) :
    ((o.map f).isSome) = o.isSome := by
  cases o <;> rfl

theorem processRule_ok (tree : ConfigNode) (fp r : String) (rule : RuleSpec)
    (items : List String)
    (h : recurse tree rule tree (splitDots fp) [] = Except.ok items) :
    processRule tree fp r rule =
      ({ description := some rule.description, path := some rule.rulePath,
         level := some rule.level, id_suffix := rule.id_suffix,
         display_path := rule.display_path, items := some items,
         dashboard_name := some (rule.dashboard_name.getD "??"),
         checked_items := some (rule.checked_items.getD 0),
         flagged_items := some items.length,
         service := some ((splitDots fp).headD "") }, []) := by
  simp [processRule, h]

theorem processRule_error (tree : ConfigNode) (fp r : String) (rule : RuleSpec)
    (msg : String)
    (h : recurse tree rule tree (splitDots fp) [] = Except.error msg) :
    processRule tree fp r rule =
      ({ description := some rule.description, path := some rule.rulePath,
         level := some rule.level, id_suffix := rule.id_suffix,
         display_path := rule.display_path, checked_items := some 0,
         flagged_items := some 0 },
       ["Failed to process rule defined in " ++ r ++ ".json", msg]) := by
  simp [processRule, h]

theorem tweaksStage_aborted (args : MainArgs) (tw : String → Violation → Violation)
    (st : RunState) : (tweaksStage args tw st).aborted = st.aborted := by
  unfold tweaksStage
  repeat' split
  all_goals rfl

theorem tweaksStage_trace (args : MainArgs) (tw : String → Violation → Violation)
    (st : RunState) : (tweaksStage args tw st).trace = st.trace := by
  unfold tweaksStage
  repeat' split
  all_goals rfl

theorem tweaksStage_errors (args : MainArgs) (tw : String → Violation → Violation)
    (st : RunState) : (tweaksStage args tw st).errors = st.errors := by
  unfold tweaksStage
  repeat' split
  all_goals rfl

theorem tweaksStage_violLookup_isSome (args : MainArgs)
    (tw : String → Violation → Violation) (st : RunState) (s r : String) :
    (violLookup (tweaksStage args tw st) s r).isSome = (violLookup st s r).isSome := by
  unfold tweaksStage
  repeat' split
  all_goals try rfl
  rename_i sd heq
  unfold violLookup
  rw [dictGet_dictSet]
  by_cases hs : s = "cloudtrail"
  · subst hs
    rw [if_pos rfl, heq]
    simp only [Option.some_bind']
    rw [dictGet_mapVal sd.violations (fun k v => tw k v) r]
    exact isSome_opmap _ _
  · rw [if_neg hs]

theorem excStep_eq_of_aborted (st : RunState) (s r : String) (E : List String)
    (m : String) (hab : st.aborted = some m) : excStep st s r E = st := by
  simp [excStep, hab]

theorem excStep_trace (st : RunState) (s r : String) (E : List String) :
    (excStep st s r E).trace = st.trace := by
  unfold excStep
  repeat' split
  all_goals rfl

theorem excStep_errors (st : RunState) (s r : String) (E : List String) :
    (excStep st s r E).errors = st.errors := by
  unfold excStep
  repeat' split
  all_goals rfl

theorem excStep_abort_of_bad (st : RunState) (s r : String) (E : List String)
    (hab : st.aborted = none) (h : hasItemsB st.svc s r = false) :
    (excStep st s r E).aborted.isSome := by
  cases hsd : dictGet st.svc s with
  | none => simp [excStep, hab, hsd]
  | some sd =>
      cases hv : dictGet sd.violations r with
      | none => simp [excStep, hab, hsd, hv]
      | some v =>
          cases hit : v.items with
          | none => simp [excStep, hab, hsd, hv, hit]
          | some items => simp [hasItemsB, hsd, hv, hit] at h

theorem excStep_ok_of_good (st : RunState) (s r : String) (E : List String)
    (hab : st.aborted = none) (h : hasItemsB st.svc s r = true) :
    (excStep st s r E).aborted = none ∧
      ∀ s2 r2, hasItemsB (excStep st s r E).svc s2 r2 = hasItemsB st.svc s2 r2 := by
  cases hsd : dictGet st.svc s with
  | none => simp [hasItemsB, hsd] at h
  | some sd =>
      cases hv : dictGet sd.violations r with
      | none => simp [hasItemsB, hsd, hv] at h
      | some v =>
          cases hit : v.items with
          | none => simp [hasItemsB, hsd, hv, hit] at h
          | some items =>
              have hstep : excStep st s r E = { st with svc := (dictSet st.svc s
                  { sd with violations := (dictSet sd.violations r
                      { v with items := some (filterItems items E),
                               flagged_items := some (filterItems items E).length }) }) } := by
                simp [excStep, hab, hsd, hv, hit]
              rw [hstep]
              refine ⟨hab, ?_⟩
              intro s2 r2
              by_cases hs2 : s2 = s
              · subst hs2
                by_cases hr2 : r2 = r
                · subst hr2
                  simp [hasItemsB, dictGet_dictSet, hsd, hv, hit]
                · simp [hasItemsB, dictGet_dictSet, hsd, hr2]
              · simp [hasItemsB, dictGet_dictSet, hs2]

theorem excStep_violLookup_isSome (st : RunState) (s r : String) (E : List String)
    (s2 r2 : String) :
    (violLookup (excStep st s r E) s2 r2).isSome = (violLookup st s2 r2).isSome := by
  cases hab : st.aborted with
  | some m => rw [excStep_eq_of_aborted st s r E m hab]
  | none =>
      cases hsd : dictGet st.svc s with
      | none => simp [excStep, hab, hsd, violLookup]
      | some sd =>
          cases hv : dictGet sd.violations r with
          | none => simp [excStep, hab, hsd, hv, violLookup]
          | some v =>
              cases hit : v.items with
              | none => simp [excStep, hab, hsd, hv, hit, violLookup]
              | some items =>
                  by_cases hs2 : s2 = s
                  · subst hs2
                    by_cases hr2 : r2 = r
                    · subst hr2
                      simp [excStep, hab, hsd, hv, hit, violLookup, dictGet_dictSet]
                    · simp [excStep, hab, hsd, hv, hit, violLookup, dictGet_dictSet, hr2]
                  · simp [excStep, hab, hsd, hv, hit, violLookup, dictGet_dictSet, hs2]

theorem excStep_violLookup_result (st : RunState) (s r : String) (E : List String)
    (sd : ServiceData) (v : Violation) (items : List String)
    (hab : st.aborted = none) (hsd : dictGet st.svc s = some sd)
    (hv : dictGet sd.violations r = some v) (hit : v.items = some items) :
    violLookup (excStep st s r E) s r =
      some { v with items := some (filterItems items E),
                    flagged_items := some (filterItems items E).length } := by
  simp [excStep, hab, hsd, hv, hit, violLookup, dictGet_dictSet]

theorem excFold_flat (excs : ExcFile) (st : RunState) :
    excs.foldl (fun st p => p.2.foldl (fun st q => excStep st p.1 q.1 q.2) st) st =
      (excPairs excs).foldl (fun st q => excStep st q.1 q.2.1 q.2.2) st := by
  induction excs generalizing st with
  | nil => rfl
  | cons p ps ih =>
      rw [List.foldl_cons, ih]
      show _ = ((p.2.map (fun q => (p.1, q.1, q.2)) ++ excPairs ps).foldl
        (fun st q => excStep st q.1 q.2.1 q.2.2) st)
      rw [List.foldl_append, List.foldl_map]

theorem excFold_keeps_aborted (pairs : List (String × String × List String))
    (st : RunState) (h : st.aborted.isSome) :
    (pairs.foldl (fun st q => excStep st q.1 q.2.1 q.2.2) st).aborted.isSome := by
  refine foldl_preserve (fun b => b.aborted.isSome = true) _ pairs st h ?_
  intro b q _ hb
  rcases Option.isSome_iff_exists.mp hb with ⟨m, hm⟩
  rw [excStep_eq_of_aborted b q.1 q.2.1 q.2.2 m hm]
  exact hb

theorem excFold_abort_iff (pairs : List (String × String × List String)) (st : RunState)
    (hab : st.aborted = none) :
    ((pairs.foldl (fun st q => excStep st q.1 q.2.1 q.2.2) st).aborted.isSome) ↔
      ∃ q ∈ pairs, hasItemsB st.svc q.1 q.2.1 = false := by
  induction pairs generalizing st with
  | nil => simp [hab]
  | cons q qs ih =>
      by_cases hq : hasItemsB st.svc q.1 q.2.1 = true
      · rcases excStep_ok_of_good st q.1 q.2.1 q.2.2 hab hq with ⟨hab2, hpre⟩
        rw [List.foldl_cons, ih _ hab2]
        constructor
        · rintro ⟨q2, hq2, hbad⟩
          refine ⟨q2, List.mem_cons_of_mem _ hq2, ?_⟩
          rw [← hpre q2.1 q2.2.1]
          exact hbad
        · rintro ⟨q2, hq2, hbad⟩
          rcases List.mem_cons.mp hq2 with h | h
          · rw [h] at hbad
            rw [hbad] at hq
            cases hq
          · refine ⟨q2, h, ?_⟩
            rw [hpre q2.1 q2.2.1]
            exact hbad
      · have hbad : hasItemsB st.svc q.1 q.2.1 = false := by
          cases hB : hasItemsB st.svc q.1 q.2.1
          · rfl
          · exact absurd hB hq
        constructor
        · intro _
          exact ⟨q, List.mem_cons_self q qs, hbad⟩
        · intro _
          rw [List.foldl_cons]
          exact excFold_keeps_aborted qs _ (excStep_abort_of_bad st q.1 q.2.1 q.2.2 hab hbad)

theorem excFold_trace (pairs : List (String × String × List String)) (st : RunState) :
    (pairs.foldl (fun st q => excStep st q.1 q.2.1 q.2.2) st).trace = st.trace := by
  refine foldl_preserve (fun b => b.trace = st.trace) _ pairs st rfl ?_
  intro b q _ hb
  rw [excStep_trace, hb]

theorem excFold_errors (pairs : List (String × String × List String)) (st : RunState) :
    (pairs.foldl (fun st q => excStep st q.1 q.2.1 q.2.2) st).errors = st.errors := by
  refine foldl_preserve (fun b => b.errors = st.errors) _ pairs st rfl ?_
  intro b q _ hb
  rw [excStep_errors, hb]

theorem excFold_violLookup_isSome (pairs : List (String × String × List String))
    (st : RunState) (s2 r2 : String) :
    (violLookup (pairs.foldl (fun st q => excStep st q.1 q.2.1 q.2.2) st) s2 r2).isSome =
      (violLookup st s2 r2).isSome := by
  refine foldl_preserve (fun b => (violLookup b s2 r2).isSome = (violLookup st s2 r2).isSome)
    _ pairs st rfl ?_
  intro b q _ hb
  rw [excStep_violLookup_isSome, hb]

theorem exceptionsStage_none (st : RunState) : exceptionsStage none st = st := by
  unfold exceptionsStage
  split
  · rfl
  · rfl

theorem exceptionsStage_error (st : RunState) (msg : String) (hab : st.aborted = none) :
    exceptionsStage (some (Except.error msg)) st =
      { st with trace := st.trace ++ [Event.loadExceptions], aborted := some msg } := by
  simp [exceptionsStage, hab]

theorem exceptionsStage_eq_of_aborted (excArg : Option (Except String ExcFile))
    (st : RunState) (m : String) (hab : st.aborted = some m) :
    exceptionsStage excArg st = st := by
  simp [exceptionsStage, hab]

theorem exceptionsStage_ok (st : RunState) (excs : ExcFile) (hab : st.aborted = none) :
    exceptionsStage (some (Except.ok excs)) st =
      (excPairs excs).foldl (fun st q => excStep st q.1 q.2.1 q.2.2)
        { st with trace := st.trace ++ [Event.loadExceptions] } := by
  rw [show exceptionsStage (some (Except.ok excs)) st =
      excs.foldl (fun st p => p.2.foldl (fun st q => excStep st p.1 q.1 q.2) st)
        { st with trace := st.trace ++ [Event.loadExceptions] } by simp [exceptionsStage, hab]]
  exact excFold_flat excs _

theorem metadataStage_svc (res : Except String Unit) (st : RunState) :
    (metadataStage res st).svc = st.svc := by
  unfold metadataStage
  repeat' split
  all_goals rfl

theorem metadataStage_trace (res : Except String Unit) (st : RunState) :
    (metadataStage res st).trace = st.trace := by
  unfold metadataStage
  repeat' split
  all_goals rfl

theorem metadataStage_aborted (res : Except String Unit) (st : RunState) :
    (metadataStage res st).aborted = st.aborted := by
  unfold metadataStage
  repeat' split
  all_goals rfl

theorem reportStage_aborted (st : RunState) : (reportStage st).aborted = st.aborted := by
  unfold reportStage
  split
  · rfl
  · rfl

theorem reportStage_svc (st : RunState) : (reportStage st).svc = st.svc := by
  unfold reportStage
  split
  · rfl
  · rfl

theorem reportStage_eq_of_aborted (st : RunState) (m : String) (hab : st.aborted = some m) :
    reportStage st = st := by
  simp [reportStage, hab]

theorem mainAfterEnrich_aborted (args : MainArgs) (co : Collaborators) :
    (mainAfterEnrich args co).aborted = none := by
  unfold mainAfterEnrich enrichStage
  rw [enrichBPPass_aborted, enrichIRPass_aborted, mainBeforeEnrich_aborted]

theorem mainAfterEnrich_presence (args : MainArgs) (co : Collaborators) (s : String)
    (hs : s ∈ args.services) : (dictGet (mainAfterEnrich args co).svc s).isSome := by
  unfold mainAfterEnrich enrichStage
  exact enrichBPPass_presence _ _ _ s
    (enrichIRPass_presence _ _ _ s (mainBeforeEnrich_presence args co s hs))

theorem mainAfterEnrich_violLookup (args : MainArgs) (co : Collaborators) (s r : String) :
    violLookup (mainAfterEnrich args co) s r = violLookup (mainBeforeEnrich args co) s r := by
  unfold mainAfterEnrich enrichStage
  rw [enrichBPPass_violLookup, enrichIRPass_violLookup]

theorem mainAfterEnrich_trace_events (args : MainArgs) (co : Collaborators) :
    ∀ ev ∈ (mainAfterEnrich args co).trace,
      ev = Event.enrichInstancesRoles ∨ ev = Event.enrichPoliciesBuckets := by
  unfold mainAfterEnrich enrichStage
  rcases enrichIRPass_trace args co.enrichIR (mainBeforeEnrich args co) with ⟨t1, h1, hm1⟩
  rcases enrichBPPass_trace args co.enrichBP
    (enrichIRPass args co.enrichIR (mainBeforeEnrich args co)) with ⟨t2, h2, hm2⟩
  intro ev hev
  rw [h2, h1, mainBeforeEnrich_trace] at hev
  simp only [List.nil_append, List.mem_append] at hev
  rcases hev with h | h
  · left
    exact hm1 ev h
  · right
    exact hm2 ev h

theorem mainAfterEnrich_trace_all (args : MainArgs) (co : Collaborators)
    (h2 : "ec2" ∈ args.services) (h3 : "iam" ∈ args.services) (h4 : "s3" ∈ args.services) :
    (mainAfterEnrich args co).trace =
      [Event.enrichInstancesRoles, Event.enrichPoliciesBuckets] := by
  unfold mainAfterEnrich enrichStage
  have hb := mainBeforeEnrich_aborted args co
  have hpe := mainBeforeEnrich_presence args co "ec2" h2
  have hpi := mainBeforeEnrich_presence args co "iam" h3
  have hps := mainBeforeEnrich_presence args co "s3" h4
  rw [enrichBPPass_trace_selected _ _ _ (by rw [enrichIRPass_aborted]; exact hb) h4 h3
      (enrichIRPass_presence _ _ _ _ hps) (enrichIRPass_presence _ _ _ _ hpi)]
  rw [enrichIRPass_trace_selected _ _ _ hb h2 h3 hpe hpi, mainBeforeEnrich_trace]
  rfl

theorem mainAfterRules_aborted (args : MainArgs) (co : Collaborators)
    (catalog : List CatalogEntry)
    (hcat : ∀ e ∈ catalog, entryService e ∈ args.services) :
    (mainAfterRules args co catalog).aborted = none :=
  ruleLoop_aborted catalog _ (mainAfterEnrich_aborted args co)
    (fun e he => mainAfterEnrich_presence args co _ (hcat e he))

theorem mainAfterRules_trace (args : MainArgs) (co : Collaborators)
    (catalog : List CatalogEntry)
    (hcat : ∀ e ∈ catalog, entryService e ∈ args.services) :
    (mainAfterRules args co catalog).trace = (mainAfterEnrich args co).trace ++
      catalog.map (fun e => Event.evalRule (entryService e) e.2.1) :=
  ruleLoop_trace catalog _ (mainAfterEnrich_aborted args co)
    (fun e he => mainAfterEnrich_presence args co _ (hcat e he))

theorem mainAfterTweaks_aborted (args : MainArgs) (co : Collaborators)
    (catalog : List CatalogEntry)
    (hcat : ∀ e ∈ catalog, entryService e ∈ args.services) :
    (mainAfterTweaks args co catalog).aborted = none := by
  unfold mainAfterTweaks
  rw [tweaksStage_aborted]
  exact mainAfterRules_aborted args co catalog hcat

theorem mainAfterTweaks_trace (args : MainArgs) (co : Collaborators)
    (catalog : List CatalogEntry) :
    (mainAfterTweaks args co catalog).trace = (mainAfterRules args co catalog).trace := by
  unfold mainAfterTweaks
  rw [tweaksStage_trace]

theorem mainAfterTweaks_trace_events (args : MainArgs) (co : Collaborators)
    (catalog : List CatalogEntry) :
    ∀ ev ∈ (mainAfterTweaks args co catalog).trace,
      ev ≠ Event.report ∧ ev ≠ Event.loadExceptions := by
  rw [mainAfterTweaks_trace]
  rcases ruleLoop_trace_sub catalog (mainAfterEnrich args co) with ⟨tl, hl, hm⟩
  show ∀ ev ∈ (ruleLoop catalog (mainAfterEnrich args co)).trace, _
  rw [hl]
  intro ev hev
  rcases List.mem_append.mp hev with h | h
  · rcases mainAfterEnrich_trace_events args co ev h with h1 | h1 <;>
      · subst h1
        exact ⟨fun hc => Event.noConfusion hc, fun hc => Event.noConfusion hc⟩
  · rcases hm ev h with ⟨a, b, rfl⟩
    exact ⟨fun hc => Event.noConfusion hc, fun hc => Event.noConfusion hc⟩

theorem exceptionsStage_trace_sub (excArg : Option (Except String ExcFile)) (st : RunState) :
    ∃ tl, (exceptionsStage excArg st).trace = st.trace ++ tl ∧
      ∀ ev ∈ tl, ev = Event.loadExceptions := by
  cases hab : st.aborted with
  | some m =>
      rw [exceptionsStage_eq_of_aborted excArg st m hab]
      exact ⟨[], (List.append_nil _).symm, fun ev hev => absurd hev (List.not_mem_nil ev)⟩
  | none =>
      cases excArg with
      | none =>
          rw [exceptionsStage_none]
          exact ⟨[], (List.append_nil _).symm, fun ev hev => absurd hev (List.not_mem_nil ev)⟩
      | some exc =>
          cases exc with
          | error msg =>
              rw [exceptionsStage_error st msg hab]
              exact ⟨[Event.loadExceptions], rfl, fun ev hev => List.mem_singleton.mp hev⟩
          | ok excs =>
              rw [exceptionsStage_ok st excs hab, excFold_trace]
              exact ⟨[Event.loadExceptions], rfl, fun ev hev => List.mem_singleton.mp hev⟩

theorem runMain_no_report_of_aborted (args : MainArgs) (co : Collaborators)
    (catalog : List CatalogEntry) (excArg : Option (Except String ExcFile))
    (h : (runMain args co catalog excArg).aborted.isSome) :
    Event.report ∉ (runMain args co catalog excArg).trace := by
  unfold runMain at *
  rcases Option.isSome_iff_exists.mp h with ⟨m, hm⟩
  rw [reportStage_aborted, metadataStage_aborted] at hm
  have hrep : reportStage (metadataStage co.metadataResult
      (exceptionsStage excArg (mainAfterTweaks args co catalog))) =
      metadataStage co.metadataResult
        (exceptionsStage excArg (mainAfterTweaks args co catalog)) := by
    apply reportStage_eq_of_aborted _ m
    rw [metadataStage_aborted]
    exact hm
  rw [hrep, metadataStage_trace]
  rcases exceptionsStage_trace_sub excArg (mainAfterTweaks args co catalog) with ⟨tl, hl, hmem⟩
  rw [hl]
  intro hcontra
  rcases List.mem_append.mp hcontra with hc | hc
  · exact (mainAfterTweaks_trace_events args co catalog _ hc).1 rfl
  · exact Event.noConfusion (hmem _ hc)

theorem reportStage_trace_sub (st : RunState) :
    ∃ tl, (reportStage st).trace = st.trace ++ tl ∧ ∀ ev ∈ tl, ev = Event.report := by
  unfold reportStage
  split
  · exact ⟨[], (List.append_nil _).symm, fun ev hev => absurd hev (List.not_mem_nil ev)⟩
  · exact ⟨[Event.report], rfl, fun ev hev => List.mem_singleton.mp hev⟩

theorem exceptionsStage_violLookup_isSome (excArg : Option (Except String ExcFile))
    (st : RunState) (s r : String) :
    (violLookup (exceptionsStage excArg st) s r).isSome = (violLookup st s r).isSome := by
  cases hab : st.aborted with
  | some m => rw [exceptionsStage_eq_of_aborted excArg st m hab]
  | none =>
      cases excArg with
      | none => rw [exceptionsStage_none]
      | some exc =>
          cases exc with
          | error msg =>
              rw [exceptionsStage_error st msg hab]
              rfl
          | ok excs =>
              rw [exceptionsStage_ok st excs hab]
              exact excFold_violLookup_isSome (excPairs excs) _ s r

theorem runMain_violLookup_isSome (args : MainArgs) (co : Collaborators)
    (catalog : List CatalogEntry) (excArg : Option (Except String ExcFile)) (s r : String) :
    (violLookup (runMain args co catalog excArg) s r).isSome =
      (violLookup (mainAfterRules args co catalog) s r).isSome := by
  unfold runMain
  show (violLookup (reportStage _) s r).isSome = _
  unfold violLookup
  rw [reportStage_svc, metadataStage_svc]
  show (violLookup (exceptionsStage excArg (mainAfterTweaks args co catalog)) s r).isSome = _
  rw [exceptionsStage_violLookup_isSome]
  unfold mainAfterTweaks
  rw [tweaksStage_violLookup_isSome]
  rfl

/-- C1 counterexample: in the run of the one-rule catalog whose condition
always raises, the failing rule's Violation record has NO `items` key at all
(`items = none`, so that reading it raises `KeyError`, see lines 186-191 and
205 of `Scout2.py`) — it does not fall back to `items` being the empty set as
the claim states. -/
theorem C1_counterexample :
    violLookup (ruleLoop failCatalog sampleState) "s" "r" = some failedViolation ∧
      failedViolation.items = none ∧ failedViolation.items ≠ some [] := by
  refine ⟨by decide, rfl, by decide⟩

/-- C1 (amended): when evaluating a rule raises, the failure is reported, the
record falls back to `flagged_items = 0` and `checked_items = 0` with the
`items` key left absent (not the empty set), and processing continues: every
entry of the catalog still receives exactly the Violation record of its own
independent evaluation against the tree. -/
theorem C1_rule_failure_isolation (st : RunState) (catalog : List CatalogEntry)
    (fp r : String) (rule : RuleSpec) (msg : String)
    (hab : st.aborted = none)
    (hpres : ∀ e ∈ catalog, (dictGet st.svc (entryService e)).isSome)
    (hnodup : (catalog.map (fun e => (entryService e, e.2.1))).Nodup)
    (hmem : (fp, r, rule) ∈ catalog)
    (hfail : recurse (servicesTree st.svc) rule (servicesTree st.svc) (splitDots fp) []
      = Except.error msg) :
    (∃ v, violLookup (ruleLoop catalog st) (entryService (fp, r, rule)) r = some v ∧
        v.items = none ∧ v.flagged_items = some 0 ∧ v.checked_items = some 0) ∧
    ("Failed to process rule defined in " ++ r ++ ".json") ∈ (ruleLoop catalog st).errors ∧
    (∀ e ∈ catalog, violLookup (ruleLoop catalog st) (entryService e) e.2.1 =
        some (processRule (servicesTree st.svc) e.1 e.2.1 e.2.2).1) := by
  have hall := ruleLoop_violLookup catalog st hab hpres hnodup
  refine ⟨?_, ?_, hall⟩
  · have h := hall (fp, r, rule) hmem
    rw [processRule_error _ _ _ _ msg hfail] at h
    exact ⟨_, h, rfl, rfl, rfl⟩
  · rw [ruleLoop_errors catalog st hab hpres]
    refine List.mem_append.mpr (Or.inr (List.mem_flatMap.mpr ⟨(fp, r, rule), hmem, ?_⟩))
    rw [processRule_error _ _ _ _ msg hfail]
    exact List.mem_cons_self _ _

/-- C1 witness: the amended isolation theorem applied to the concrete
one-rule run of the counterexample. -/
theorem C1_rule_failure_isolation_witness :
    (∃ v, violLookup (ruleLoop failCatalog sampleState)
        (entryService ("s.a", "r", failRule)) "r" = some v ∧
        v.items = none ∧ v.flagged_items = some 0 ∧ v.checked_items = some 0) ∧
    ("Failed to process rule defined in " ++ "r" ++ ".json") ∈
      (ruleLoop failCatalog sampleState).errors ∧
    (∀ e ∈ failCatalog, violLookup (ruleLoop failCatalog sampleState)
        (entryService e) e.2.1 =
        some (processRule (servicesTree sampleState.svc) e.1 e.2.1 e.2.2).1) :=
  C1_rule_failure_isolation sampleState failCatalog "s.a" "r" failRule "boom" rfl
    (by decide) (by decide) (List.mem_cons_self _ _) rfl

/-- C2 counterexample: for the concrete always-raising rule that DOES supply
a `dashboard_name`, the produced Violation record has no `dashboard_name`
key: the field is assigned only after a successful evaluation (line 182 of
`Scout2.py`, inside the `try`), so it is not present when evaluation fails —
contradicting the claim that it is initialized before the Path Evaluator is
invoked. -/
theorem C2_counterexample :
    failRule.dashboard_name = some "DB" ∧
    (processRule sampleTree "s.a" "r" failRule).1.dashboard_name = none := by
  exact ⟨rfl, rfl⟩

/-- C2 (amended): `description`, `path`, `level`, optional `id_suffix` and
optional `display_path` are copied into the Violation record before the Path
Evaluator runs and are therefore present even when evaluation fails;
`dashboard_name` (defaulted to the placeholder `??`) and `service` are
assigned only after a successful evaluation and are absent when it fails. -/
theorem C2_metadata_initialization (tree : ConfigNode) (fp r : String) (rule : RuleSpec) :
    (processRule tree fp r rule).1.description = some rule.description ∧
    (processRule tree fp r rule).1.path = some rule.rulePath ∧
    (processRule tree fp r rule).1.level = some rule.level ∧
    (processRule tree fp r rule).1.id_suffix = rule.id_suffix ∧
    (processRule tree fp r rule).1.display_path = rule.display_path ∧
    (∀ msg, recurse tree rule tree (splitDots fp) [] = Except.error msg →
      (processRule tree fp r rule).1.dashboard_name = none ∧
      (processRule tree fp r rule).1.service = none) ∧
    (∀ items, recurse tree rule tree (splitDots fp) [] = Except.ok items →
      (processRule tree fp r rule).1.dashboard_name =
        some (rule.dashboard_name.getD "??")) := by
  cases h : recurse tree rule tree (splitDots fp) [] with
  | ok items =>
      rw [processRule_ok tree fp r rule items h]
      refine ⟨rfl, rfl, rfl, rfl, rfl, ?_, ?_⟩
      · intro msg hmsg
        cases hmsg
      · intro items2 hit
        exact rfl
  | error msg =>
      rw [processRule_error tree fp r rule msg h]
      refine ⟨rfl, rfl, rfl, rfl, rfl, ?_, ?_⟩
      · intro msg2 hm
        exact ⟨rfl, rfl⟩
      · intro items hit
        cases hit

/-- C2 witness: the amended metadata theorem at the concrete failing rule. -/
theorem C2_metadata_initialization_witness :
    (processRule sampleTree "s.a" "r2" failRule).1.description =
      some failRule.description ∧
    (processRule sampleTree "s.a" "r2" failRule).1.path = some failRule.rulePath ∧
    (processRule sampleTree "s.a" "r2" failRule).1.level = some failRule.level ∧
    (processRule sampleTree "s.a" "r2" failRule).1.id_suffix = failRule.id_suffix ∧
    (processRule sampleTree "s.a" "r2" failRule).1.display_path = failRule.display_path ∧
    (∀ msg, recurse sampleTree failRule sampleTree (splitDots "s.a") [] =
        Except.error msg →
      (processRule sampleTree "s.a" "r2" failRule).1.dashboard_name = none ∧
      (processRule sampleTree "s.a" "r2" failRule).1.service = none) ∧
    (∀ items, recurse sampleTree failRule sampleTree (splitDots "s.a") [] =
        Except.ok items →
      (processRule sampleTree "s.a" "r2" failRule).1.dashboard_name =
        some (failRule.dashboard_name.getD "??")) :=
  C2_metadata_initialization sampleTree "s.a" "r2" failRule

/-- C3 (confirmed): the Exception Filter computes exactly the set difference
of the violation items and the exception entry, membership decided by exact
string equality; it stores the filtered list and recomputes
`flagged_items` as its length; and on the section 8 scenario — one flagged
item suppressed by the identical identifier string — it yields the empty
collection with zero flagged items. -/
theorem C3_exception_filter_set_difference :
    (∀ I E : List String, (filterItems I E).toFinset = I.toFinset \ E.toFinset ∧
      (∀ x, x ∈ filterItems I E ↔ x ∈ I ∧ x ∉ E)) ∧
    (∀ st s r E sd v items, st.aborted = none → dictGet st.svc s = some sd →
      dictGet sd.violations r = some v → v.items = some items →
      violLookup (excStep st s r E) s r =
        some { v with items := some (filterItems items E),
                      flagged_items := some (filterItems items E).length }) ∧
    filterItems [scenarioItem] [scenarioItem] = [] ∧
    (filterItems [scenarioItem] [scenarioItem]).length = 0 := by
  refine ⟨fun I E => ⟨filterItems_toFinset I E, mem_filterItems I E⟩, ?_, by decide, by decide⟩
  intro st s r E sd v items hab hsd hv hit
  exact excStep_violLookup_result st s r E sd v items hab hsd hv hit

/-- C3 witness: the filter theorem applied to a concrete state whose rule
`r` holds one item that the exception entry suppresses. -/
theorem C3_exception_filter_set_difference_witness :
    violLookup (excStep sampleViolState "s" "r" ["x"]) "s" "r" =
      some { sampleViol with items := some (filterItems ["x"] ["x"]),
                             flagged_items := some (filterItems ["x"] ["x"]).length } :=
  C3_exception_filter_set_difference.2.1 sampleViolState "s" "r" ["x"] sampleSd
    sampleViol ["x"] rfl rfl rfl rfl

/-- C4 counterexample: a rule supplying the non-zero denominator
`checked_items = 1` whose evaluation flags 2 items yields a final record with
`checked_items = 1 < 2 = flagged_items`: nothing in the code enforces
`checked_items >= flagged_items`, the value is copied verbatim from the rule
(line 183 of `Scout2.py`). -/
theorem C4_counterexample :
    overcountRule.checked_items = some 1 ∧
    (processRule twoLeafTree "s.*" "r" overcountRule).1.checked_items = some 1 ∧
    (processRule twoLeafTree "s.*" "r" overcountRule).1.flagged_items = some 2 := by
  exact ⟨rfl, by decide, by decide⟩

/-- C4 (amended): `flagged_items = len(items)` holds for every record whose
evaluation succeeded, the failure fallback sets `flagged_items = 0` with
`items` absent, and the Exception Filter re-establishes
`flagged_items = len(items)` on the filtered list; `checked_items` is copied
verbatim from the rule (defaulted to 0) and is NOT forced to be at least
`flagged_items`. -/
theorem C4_flagged_items_invariant :
    (∀ tree fp r rule items,
      recurse tree rule tree (splitDots fp) [] = Except.ok items →
      (processRule tree fp r rule).1.items = some items ∧
      (processRule tree fp r rule).1.flagged_items = some items.length ∧
      (processRule tree fp r rule).1.checked_items = some (rule.checked_items.getD 0)) ∧
    (∀ tree fp r rule msg,
      recurse tree rule tree (splitDots fp) [] = Except.error msg →
      (processRule tree fp r rule).1.items = none ∧
      (processRule tree fp r rule).1.flagged_items = some 0) ∧
    (∀ st s r E sd v items, st.aborted = none → dictGet st.svc s = some sd →
      dictGet sd.violations r = some v → v.items = some items →
      ∃ v2, violLookup (excStep st s r E) s r = some v2 ∧
        v2.items = some (filterItems items E) ∧
        v2.flagged_items = some (filterItems items E).length) := by
  refine ⟨?_, ?_, ?_⟩
  · intro tree fp r rule items h
    rw [processRule_ok tree fp r rule items h]
    exact ⟨rfl, rfl, rfl⟩
  · intro tree fp r rule msg h
    rw [processRule_error tree fp r rule msg h]
    exact ⟨rfl, rfl⟩
  · intro st s r E sd v items hab hsd hv hit
    exact ⟨_, excStep_violLookup_result st s r E sd v items hab hsd hv hit, rfl, rfl⟩

/-- C4 witness: the invariant theorem applied to the successful two-leaf
evaluation of the over-counting rule. -/
theorem C4_flagged_items_invariant_witness :
    (processRule twoLeafTree "s.*" "r" overcountRule).1.items = some ["s.a", "s.b"] ∧
    (processRule twoLeafTree "s.*" "r" overcountRule).1.flagged_items =
      some (["s.a", "s.b"] : List String).length ∧
    (processRule twoLeafTree "s.*" "r" overcountRule).1.checked_items =
      some (overcountRule.checked_items.getD 0) :=
  C4_flagged_items_invariant.1 twoLeafTree "s.*" "r" overcountRule ["s.a", "s.b"] rfl

/-- C5 (confirmed): the Exception Filter is the identity for an empty
ExceptionSet entry and is idempotent for any entry. -/
theorem C5_filter_identity_idempotent (I E : List String) :
    filterItems I [] = I ∧ filterItems (filterItems I E) E = filterItems I E :=
  ⟨filterItems_nil I, filterItems_idem I E⟩

/-- C5 witness: identity and idempotence at a concrete item collection. -/
theorem C5_filter_identity_idempotent_witness :
    filterItems ["a", "b"] [] = ["a", "b"] ∧
      filterItems (filterItems ["a", "b"] ["b"]) ["b"] = filterItems ["a", "b"] ["b"] :=
  C5_filter_identity_idempotent ["a", "b"] ["b"]

/-- C6 counterexample: a concrete run whose exception file fails to parse is
aborted with the parse error — but the trace of that aborted run already
contains the rule-evaluation event: the exception file is opened only AFTER
rule evaluation completed (lines 197-201 come after lines 166-191 of
`Scout2.py`), not before evaluation begins as the claim states. -/
theorem C6_counterexample :
    (runMain sampleArgs sampleCo okCatalog badExc).aborted = some "not valid JSON" ∧
    Event.evalRule "s" "r" ∈ (runMain sampleArgs sampleCo okCatalog badExc).trace ∧
    Event.report ∉ (runMain sampleArgs sampleCo okCatalog badExc).trace := by
  refine ⟨by decide, by decide, by decide⟩

/-- C6 (amended): an unreadable or malformed exception file is fatal — the
parse error propagates uncaught to the top level and the final report is
never produced — but it is surfaced only AFTER the whole rule evaluation has
run: every catalog entry's evaluation event is already in the trace of the
aborted run. -/
theorem C6_exceptions_fatal_after_evaluation (args : MainArgs) (co : Collaborators)
    (catalog : List CatalogEntry) (msg : String)
    (hcat : ∀ e ∈ catalog, entryService e ∈ args.services) :
    (runMain args co catalog (some (Except.error msg))).aborted = some msg ∧
    Event.report ∉ (runMain args co catalog (some (Except.error msg))).trace ∧
    ∀ e ∈ catalog, Event.evalRule (entryService e) e.2.1 ∈
      (runMain args co catalog (some (Except.error msg))).trace := by
  have hab3 := mainAfterTweaks_aborted args co catalog hcat
  have hexc := exceptionsStage_error (mainAfterTweaks args co catalog) msg hab3
  have habFinal : (runMain args co catalog (some (Except.error msg))).aborted = some msg := by
    unfold runMain
    rw [reportStage_aborted, metadataStage_aborted, hexc]
  have htr : (runMain args co catalog (some (Except.error msg))).trace =
      (mainAfterTweaks args co catalog).trace ++ [Event.loadExceptions] := by
    unfold runMain
    rw [reportStage_eq_of_aborted _ msg (by rw [metadataStage_aborted, hexc]),
        metadataStage_trace, hexc]
  refine ⟨habFinal, runMain_no_report_of_aborted args co catalog _
    (by rw [habFinal]; rfl), ?_⟩
  intro e he
  rw [htr, mainAfterTweaks_trace, mainAfterRules_trace args co catalog hcat]
  refine List.mem_append.mpr (Or.inl (List.mem_append.mpr (Or.inr ?_)))
  exact List.mem_map.mpr ⟨e, he, rfl⟩

/-- C6 witness: the amended theorem at the concrete one-rule run with a
malformed exception file. -/
theorem C6_exceptions_fatal_after_evaluation_witness :
    (runMain sampleArgs sampleCo okCatalog (some (Except.error "not valid JSON"))).aborted
      = some "not valid JSON" ∧
    Event.report ∉
      (runMain sampleArgs sampleCo okCatalog (some (Except.error "not valid JSON"))).trace ∧
    ∀ e ∈ okCatalog, Event.evalRule (entryService e) e.2.1 ∈
      (runMain sampleArgs sampleCo okCatalog
        (some (Except.error "not valid JSON"))).trace :=
  C6_exceptions_fatal_after_evaluation sampleArgs sampleCo okCatalog "not valid JSON"
    (by decide)

/-- C7 counterexample: in a run whose Instance-Role enricher raises after
partially mutating the ec2 configuration in place, the containment block of
`main` (lines 152-156 of `Scout2.py`) PRINTS an error diagnostic — the
escaped failure is reported, not silently skipped with no report needed as
the claim states — and the partial in-place enrichment persists in the tree
(the ec2 configuration changed from the fetched empty mapping to the
partially written value), so the failure does not result only in omission
of the derived attribute. -/
theorem C7_counterexample :
    "Error: EC2 or IAM configuration is missing." ∈
      (runMain bothArgs failingEnrichCo [] none).errors ∧
    (runMain bothArgs failingEnrichCo [] none).aborted = none ∧
    (dictGet (mainBeforeEnrich bothArgs failingEnrichCo).svc "ec2").map ServiceData.config
      = some (ConfigNode.map []) ∧
    (dictGet (mainAfterEnrich bothArgs failingEnrichCo).svc "ec2").map ServiceData.config
      = some (ConfigNode.str "partial") := by
  refine ⟨by decide, by decide, rfl, rfl⟩

/-- C7 (amended): an exception escaping a Cross-Reference Enricher never
aborts the run: it is contained at the enrichment boundary in `main`,
reported with an error diagnostic (not silently skipped), and rule
evaluation still proceeds for every rule of the catalog.  `main` performs no
rollback, so in-place mutation the enricher performed before raising
persists in the tree; its effect is confined to the configuration of the
enriched services — every other service's entry and every violations record
of every service is unaffected. -/
theorem C7_enrichment_containment (args : MainArgs) (co : Collaborators)
    (catalog : List CatalogEntry)
    (hcat : ∀ e ∈ catalog, entryService e ∈ args.services) :
    (mainAfterEnrich args co).aborted = none ∧
    (∀ s r, violLookup (mainAfterEnrich args co) s r =
      violLookup (mainBeforeEnrich args co) s r) ∧
    (∀ k, ¬ k = "ec2" → ¬ k = "iam" → ¬ k = "s3" →
      dictGet (mainAfterEnrich args co).svc k =
        dictGet (mainBeforeEnrich args co).svc k) ∧
    ("ec2" ∈ args.services → "iam" ∈ args.services →
      (∀ a b, ∃ p, co.enrichIR a b = Except.error p) →
      "Error: EC2 or IAM configuration is missing." ∈ (mainAfterEnrich args co).errors) ∧
    (mainAfterRules args co catalog).aborted = none ∧
    (∀ e ∈ catalog, Event.evalRule (entryService e) e.2.1 ∈
      (mainAfterRules args co catalog).trace) := by
  refine ⟨mainAfterEnrich_aborted args co, mainAfterEnrich_violLookup args co, ?_, ?_,
    mainAfterRules_aborted args co catalog hcat, ?_⟩
  · intro k h1 h2 h3
    unfold mainAfterEnrich enrichStage
    rw [enrichBPPass_other args co.enrichBP _ k h3 h2,
        enrichIRPass_other args co.enrichIR _ k h1 h2]
  · intro h2 h3 hfail
    unfold mainAfterEnrich enrichStage
    apply enrichBPPass_errors_mono
    exact enrichIRPass_errors_of_fail args co.enrichIR _
      (mainBeforeEnrich_aborted args co) h2 h3 hfail
  · intro e he
    rw [mainAfterRules_trace args co catalog hcat]
    exact List.mem_append.mpr (Or.inr (List.mem_map.mpr ⟨e, he, rfl⟩))

/-- C7 witness: the containment theorem at the concrete run whose enricher
raises after partial in-place mutation. -/
theorem C7_enrichment_containment_witness :
    (mainAfterEnrich bothArgs failingEnrichCo).aborted = none ∧
    (∀ s r, violLookup (mainAfterEnrich bothArgs failingEnrichCo) s r =
      violLookup (mainBeforeEnrich bothArgs failingEnrichCo) s r) ∧
    (∀ k, ¬ k = "ec2" → ¬ k = "iam" → ¬ k = "s3" →
      dictGet (mainAfterEnrich bothArgs failingEnrichCo).svc k =
        dictGet (mainBeforeEnrich bothArgs failingEnrichCo).svc k) ∧
    ("ec2" ∈ bothArgs.services → "iam" ∈ bothArgs.services →
      (∀ a b, ∃ p, failingEnrichCo.enrichIR a b = Except.error p) →
      "Error: EC2 or IAM configuration is missing." ∈
        (mainAfterEnrich bothArgs failingEnrichCo).errors) ∧
    (mainAfterRules bothArgs failingEnrichCo []).aborted = none ∧
    (∀ e ∈ ([] : List CatalogEntry), Event.evalRule (entryService e) e.2.1 ∈
      (mainAfterRules bothArgs failingEnrichCo []).trace) :=
  C7_enrichment_containment bothArgs failingEnrichCo [] (by decide)

/-- C8 counterexample: in the concrete run that selects `s3` and `iam` but
not `ec2`, the Instance-Role enricher runs zero times (while the
Bucket-Policy enricher runs) — the enrichers do NOT execute exactly once in
every run; they are conditional on the selected services (lines 151 and 157
of `Scout2.py`). -/
theorem C8_counterexample :
    ((runMain enrichArgs sampleCo [] none).trace.count Event.enrichInstancesRoles) = 0 ∧
    Event.enrichPoliciesBuckets ∈ (runMain enrichArgs sampleCo [] none).trace := by
  refine ⟨by decide, by decide⟩

/-- C8 (amended): when `ec2`, `iam` and `s3` are all selected, the run's
trace starts with exactly one Instance-Role enrichment followed by exactly
one Bucket-Policy enrichment, and no enrichment event ever appears later —
in particular both passes complete before the first rule evaluation and none
runs during or after evaluation. -/
theorem C8_enrichment_order (args : MainArgs) (co : Collaborators)
    (catalog : List CatalogEntry) (excArg : Option (Except String ExcFile))
    (h2 : "ec2" ∈ args.services) (h3 : "iam" ∈ args.services)
    (h4 : "s3" ∈ args.services) :
    ∃ tl, (runMain args co catalog excArg).trace =
        [Event.enrichInstancesRoles, Event.enrichPoliciesBuckets] ++ tl ∧
      Event.enrichInstancesRoles ∉ tl ∧ Event.enrichPoliciesBuckets ∉ tl := by
  rcases ruleLoop_trace_sub catalog (mainAfterEnrich args co) with ⟨t1, h1, hm1⟩
  rcases exceptionsStage_trace_sub excArg (mainAfterTweaks args co catalog)
    with ⟨t2, hq2, hm2⟩
  rcases reportStage_trace_sub (metadataStage co.metadataResult
    (exceptionsStage excArg (mainAfterTweaks args co catalog))) with ⟨t3, h3t, hm3⟩
  refine ⟨t1 ++ (t2 ++ t3), ?_, ?_, ?_⟩
  · unfold runMain
    rw [h3t, metadataStage_trace, hq2, mainAfterTweaks_trace]
    show (ruleLoop catalog (mainAfterEnrich args co)).trace ++ t2 ++ t3 = _
    rw [h1, mainAfterEnrich_trace_all args co h2 h3 h4]
    simp [List.append_assoc]
  · intro hc
    rcases List.mem_append.mp hc with h | h
    · rcases hm1 _ h with ⟨a, b, hab2⟩
      exact Event.noConfusion hab2
    · rcases List.mem_append.mp h with h | h
      · exact Event.noConfusion (hm2 _ h)
      · exact Event.noConfusion (hm3 _ h)
  · intro hc
    rcases List.mem_append.mp hc with h | h
    · rcases hm1 _ h with ⟨a, b, hab2⟩
      exact Event.noConfusion hab2
    · rcases List.mem_append.mp h with h | h
      · exact Event.noConfusion (hm2 _ h)
      · exact Event.noConfusion (hm3 _ h)

/-- C8 witness: the ordering theorem at a concrete run selecting all three
services. -/
theorem C8_enrichment_order_witness :
    ∃ tl, (runMain allThreeArgs sampleCo [] none).trace =
        [Event.enrichInstancesRoles, Event.enrichPoliciesBuckets] ++ tl ∧
      Event.enrichInstancesRoles ∉ tl ∧ Event.enrichPoliciesBuckets ∉ tl :=
  C8_enrichment_order allThreeArgs sampleCo [] none (by decide) (by decide) (by decide)

/-- C9 counterexample: the exception file references the rule `r` of service
`s`, for which a Violation record WAS produced (the record exists — the rule
merely failed during evaluation, so its record has no `items` key).  The
filter still raises (`KeyError` on `items`, line 205 of `Scout2.py`) and the
run aborts — refuting the claimed equivalence that the filter raises only
for a dangling `(service, rule)` reference. -/
theorem C9_counterexample :
    (violLookup (mainAfterTweaks sampleArgs sampleCo failCatalog) "s" "r").isSome ∧
    (runMain sampleArgs sampleCo failCatalog sampleExc).aborted =
      some "KeyError: items" := by
  refine ⟨by decide, by decide⟩

/-- C9 (amended): the exception-filtering stage raises an uncaught lookup
error if and only if some `(service, rule)` entry of the exception file
either has no violation record or has a record without an `items` key (which
happens exactly when that rule's evaluation failed); and whenever a run
aborts, the final report is never produced. -/
theorem C9_exceptions_lookup_abort_iff (st : RunState) (excs : ExcFile)
    (hab : st.aborted = none) :
    ((exceptionsStage (some (Except.ok excs)) st).aborted.isSome ↔
      ∃ q ∈ excPairs excs, hasItemsB st.svc q.1 q.2.1 = false) ∧
    (∀ args co catalog excArg, (runMain args co catalog excArg).aborted.isSome →
      Event.report ∉ (runMain args co catalog excArg).trace) := by
  constructor
  · rw [exceptionsStage_ok st excs hab]
    exact excFold_abort_iff (excPairs excs) _ hab
  · intro args co catalog excArg h
    exact runMain_no_report_of_aborted args co catalog excArg h

/-- C9 witness: the equivalence at a concrete state whose referenced record
carries items (so the filter does not raise). -/
theorem C9_exceptions_lookup_abort_iff_witness :
    ((exceptionsStage (some (Except.ok [("s", [("r", ["x"])])]))
        sampleViolState).aborted.isSome ↔
      ∃ q ∈ excPairs [("s", [("r", ["x"])])],
        hasItemsB sampleViolState.svc q.1 q.2.1 = false) ∧
    (∀ args co catalog excArg, (runMain args co catalog excArg).aborted.isSome →
      Event.report ∉ (runMain args co catalog excArg).trace) :=
  C9_exceptions_lookup_abort_iff sampleViolState [("s", [("r", ["x"])])] rfl

/-- C10 counterexample: a run selecting only `ec2` still loads the persisted
local data of the non-selected service `s3` (line 84 of `Scout2.py`), whose
`violations` are never reset (lines 139-141 reset only SELECTED services) —
the stale violation record `old`, keyed by a rule id that is not in the
current catalog, survives into the completed run's final output. -/
theorem C10_counterexample :
    violLookup (runMain staleArgs staleCo [] none) "s3" "old" = some oldViolation ∧
    "old" ∉ ([] : List CatalogEntry).map (fun e => e.2.1) ∧
    (runMain staleArgs staleCo [] none).trace = [Event.report] := by
  refine ⟨by decide, by decide, by decide⟩

/-- C10 (amended): immediately before rule evaluation the violations mapping
of every SELECTED service is empty, and in the final output a selected
service's violations are keyed only by rule ids of the current catalog;
services not selected for the run keep whatever persisted violations their
loaded local data contained (see the counterexample). -/
theorem C10_reset_violations_selected_only (args : MainArgs) (co : Collaborators)
    (catalog : List CatalogEntry) (excArg : Option (Except String ExcFile))
    (s : String) (hs : s ∈ args.services) :
    (∀ r, violLookup (mainAfterEnrich args co) s r = none) ∧
    (∀ r, (violLookup (runMain args co catalog excArg) s r).isSome →
      r ∈ catalog.map (fun e => e.2.1)) := by
  have hempty : ∀ r, violLookup (mainAfterEnrich args co) s r = none := by
    intro r
    rw [mainAfterEnrich_violLookup]
    unfold violLookup
    cases hsd : dictGet (mainBeforeEnrich args co).svc s with
    | none => rfl
    | some sd =>
        have hv := mainBeforeEnrich_violations_empty args co s hs sd hsd
        show dictGet sd.violations r = none
        rw [hv]
        rfl
  refine ⟨hempty, ?_⟩
  intro r hr
  rw [runMain_violLookup_isSome] at hr
  rcases ruleLoop_violLookup_isSome_inv catalog (mainAfterEnrich args co) s r hr with h1 | h2
  · rw [hempty r] at h1
    cases h1
  · exact h2

/-- C10 witness: the theorem at a concrete run of the one-rule catalog for
the selected service `s`. -/
theorem C10_reset_violations_selected_only_witness :
    (∀ r, violLookup (mainAfterEnrich sampleArgs sampleCo) "s" r = none) ∧
    (∀ r, (violLookup (runMain sampleArgs sampleCo okCatalog none) "s" r).isSome →
      r ∈ okCatalog.map (fun e => e.2.1)) :=
  C10_reset_violations_selected_only sampleArgs sampleCo okCatalog none "s" (by decide)
